import Mathlib

/-!
Shallow embedding of the plan-execution engine of the Deep-Research
repository (`src/graphs/deepsearch_graph.py`, `src/graphs/research_executor.py`,
`src/graphs/writing_executor.py`, `src/schemas/graph_state.py`, `src/angent.py`).

External collaborators (the LLM backend, the web-search backend, the vector
index) are modelled as oracle function parameters; everything else is
translated from the source.  Python loops whose iterations are independent
are written as `map`/structural recursion; doc comments on each definition
name the Python symbol it embeds.
-/

namespace DeepResearch

/-- `task_type` of a plan item (`schemas/graph_state.py`, `PlanItem.task_type`). -/
inductive TaskType
  | RESEARCH
  | WRITING
deriving DecidableEq, Repr

/-- `status` of a plan item (`schemas/graph_state.py`, `PlanItem.status`). -/
inductive Status
  | pending
  | ready
  | in_progress
  | completed
  | failed
deriving DecidableEq, Repr

/-- One plan item (`schemas/graph_state.py`, `PlanItem`).  Field defaults are the
values `call_planner` fills in for a freshly planned item. -/
structure PlanItem where
  item_id : String
  task_type : TaskType
  description : String := ""
  dependencies : List String := []
  status : Status := Status.pending
  content : String := ""
  summary : Option String := none
  execution_log : List String := []
  evaluation_results : Option String := none
  attempt_count : Nat := 0
deriving DecidableEq, Repr

/-- One entry of the run-level `error_log` (a Python dict with keys
`node` and `error`). -/
structure ErrorEntry where
  node : String
  error : String
deriving DecidableEq, Repr

/-- One entry of the citation registry (`shared_context['citations'][url]`,
a dict with keys `number`, `title`, `url`). -/
structure Citation where
  number : Nat
  title : String
  url : String
deriving DecidableEq, Repr

/-- The run's `shared_context` (`angent.py` builds it as
`{"citations": {}, "next_citation_number": 1}`).  The Python dict keyed by
url is modelled as an association list in insertion order (Python dicts
preserve insertion order). -/
structure CitState where
  citations : List (String × Citation) := []
  next_citation_number : Nat := 1
deriving DecidableEq, Repr

/-- The run state (`schemas/graph_state.py`, `AgentState`).  `chat_history`
messages are opaque strings here. -/
structure AgentState where
  input : String := ""
  chat_history : List String := []
  overall_outline : Option String := none
  plan : List PlanItem := []
  final_answer : String := ""
  final_sources : List Citation := []
  current_plan_item_id : Option String := none
  supervisor_decision : String := ""
  step_count : Nat := 0
  error_log : List ErrorEntry := []
  shared_context : CitState := {}
  next_step_index : Nat := 0
deriving DecidableEq, Repr

/-- The partial state dict a LangGraph node returns.  A `none` field is a key
the node's dict does not carry (LangGraph then keeps the channel's value);
`error_log` is an `operator.add`-annotated channel, so a node's entries are
appended rather than overwriting. -/
structure NodeUpdate where
  plan : Option (List PlanItem) := none
  overall_outline : Option (Option String) := none
  current_plan_item_id : Option (Option String) := none
  shared_context : Option CitState := none
  final_answer : Option String := none
  final_sources : Option (List Citation) := none
  error_log : List ErrorEntry := []
deriving DecidableEq, Repr

/-- LangGraph's application of a node's returned dict to the state:
plain channels are overwritten when the key is present, the
`operator.add`-annotated `error_log` is concatenated. -/
def applyUpdate (s : AgentState) (u : NodeUpdate) : AgentState :=
  { s with
    plan := u.plan.getD s.plan
    overall_outline := u.overall_outline.getD s.overall_outline
    current_plan_item_id := u.current_plan_item_id.getD s.current_plan_item_id
    shared_context := u.shared_context.getD s.shared_context
    final_answer := u.final_answer.getD s.final_answer
    final_sources := u.final_sources.getD s.final_sources
    error_log := s.error_log ++ u.error_log }

/-! ## Plan validation (`DeepSearchGraph._validate_and_correct_plan`) -/

/-- `research_task_ids` of `_validate_and_correct_plan` (the set is used only
for membership, so the list of ids is an equivalent model). -/
def researchTaskIds (plan : List PlanItem) : List String :=
  (plan.filter (fun it => decide (it.task_type = TaskType.RESEARCH))).map
    (fun it => it.item_id)

/-- `all_task_ids` of `_validate_and_correct_plan`. -/
def allTaskIds (plan : List PlanItem) : List String :=
  plan.map (fun it => it.item_id)

/-- The inner `for dep_id in original_deps` loop of
`_validate_and_correct_plan`: returns the kept dependencies and the error
messages, both in traversal order. -/
def correctDeps (wid : String) (allIds researchIds : List String) :
    List String → List String × List String
  | [] => ([], [])
  | dep :: rest =>
    let (ds, es) := correctDeps wid allIds researchIds rest
    if dep ∉ allIds then
      (ds, s!"依赖 '{dep}' 不存在，已移除。" :: es)
    else if dep ∉ researchIds then
      (ds, s!"写作任务 '{wid}' 错误地依赖了非研究任务 '{dep}'，已移除。" :: es)
    else (dep :: ds, es)

/-- One iteration of the outer `for i, item in enumerate(corrected_plan)` loop
of `_validate_and_correct_plan`: a WRITING item gets its corrected
dependencies, any other item is untouched. -/
def correctItem (allIds researchIds : List String) (item : PlanItem) :
    PlanItem × List String :=
  if item.task_type = TaskType.WRITING then
    let (ds, es) := correctDeps item.item_id allIds researchIds item.dependencies
    ({ item with dependencies := ds }, es)
  else (item, [])

/-- `DeepSearchGraph._validate_and_correct_plan` (value-level behaviour).
The Python loop's iterations read only the id sets computed before the loop,
so the loop is the per-item map below, with the error lists concatenated in
plan order. -/
def validate_and_correct_plan (plan : List PlanItem) :
    List PlanItem × List String :=
  let researchIds := researchTaskIds plan
  let allIds := allTaskIds plan
  (plan.map (fun it => (correctItem allIds researchIds it).1),
   (plan.map (fun it => (correctItem allIds researchIds it).2)).flatten)

/-! ## Shared helpers of both executors -/

/-- `_find_plan_item` (`research_executor.py` / `writing_executor.py`): the
first item with the given id together with its index; `none` models the
`(None, -1)` return. -/
def find_plan_item : List PlanItem → String → Option (PlanItem × Nat)
  | [], _ => none
  | item :: rest, id =>
    if item.item_id = id then some (item, 0)
    else (find_plan_item rest id).map (fun p => (p.1, p.2 + 1))

/-- Status of the (first) item with a given id, `pending` when absent;
observation helper used when recording a resolve event. -/
def statusOf (plan : List PlanItem) (id : String) : Status :=
  ((find_plan_item plan id).map (fun p => p.1.status)).getD Status.pending

/-! ## Research executor (`research_executor.execute_research_task`) -/

/-- One record returned by the search collaborator (`search_tools.search_tool`):
title, url, snippet.  A record whose snippet is the empty string models a
record with a falsy/absent `snippet` attribute. -/
structure SearchResult where
  title : String
  url : String
  snippet : String
deriving DecidableEq, Repr

/-- Outcome of one research task's collaborator calls, the oracle for the
`try` block of `execute_research_task`: either the search returns records and
indexing succeeds, or the search call raises, or the search succeeds (so the
first log line is appended) and the indexing call raises. -/
inductive SearchOutcome
  | ok (results : List SearchResult)
  | searchRaise (e : String)
  | indexRaise (results : List SearchResult) (e : String)
deriving DecidableEq, Repr

/-- The `node` tag of the research executor's error-log entries. -/
def researchNode : String := "execute_research_task"

/-- The log line appended after a successful search call. -/
def searchOkMsg (results : List SearchResult) : String :=
  let n := results.length
  s!"成功执行搜索，获得 {n} 条结果。"

/-- The error message of the research executor's `except` handler. -/
def researchFailMsg (item : PlanItem) (e : String) : String :=
  let d := item.description
  s!"执行研究任务 '{d}' 时出错: {e}"

/-- The snippet blocks of `execute_research_task`: one `来源/标题/片段` block
per record with a non-empty snippet. -/
def snippetBlocks (results : List SearchResult) : List String :=
  (results.filter (fun r => decide (r.snippet ≠ ""))).map (fun r =>
    let u := r.url
    let t := r.title
    let sn := r.snippet
    s!"来源: {u}\n标题: {t}\n片段: {sn}")

/-- The sentinel content stored when no snippet qualifies. -/
def noInfoSentinel : String := "没有找到相关信息。"

/-- `research_executor.execute_research_task`.  The two precondition checks
return normally (they are outside the `try` block); the `try` body is driven
by the outcome oracle.  `updated_plan = [p.copy() for p in plan]` is the
identity at value level (object identity is treated in the mutable model
below), so the update is `plan.set` at the found index. -/
def execute_research_task (outcome : SearchOutcome) (s : AgentState) :
    NodeUpdate :=
  match s.current_plan_item_id with
  | none => { error_log := [⟨researchNode, "current_plan_item_id 缺失"⟩] }
  | some id =>
    match find_plan_item s.plan id with
    | none => { error_log := [⟨researchNode, s!"未找到ID为 {id} 的任务。"⟩] }
    | some (item, idx) =>
      let item1 := { item with status := Status.in_progress }
      match outcome with
      | SearchOutcome.ok results =>
        let log1 := item1.execution_log ++ [searchOkMsg results]
        let snippets := snippetBlocks results
        let raw := if snippets.isEmpty then noInfoSentinel
                   else String.intercalate "\n\n---\n\n" snippets
        let item2 := { item1 with
          content := raw
          status := Status.completed
          execution_log := log1 ++ ["研究任务完成，已存储原始网页片段。"] }
        { plan := some (s.plan.set idx item2) }
      | SearchOutcome.searchRaise e =>
        let item2 := { item1 with
          status := Status.failed
          execution_log := item1.execution_log ++ [researchFailMsg item e] }
        { plan := some (s.plan.set idx item2)
          error_log := [⟨researchNode, e⟩] }
      | SearchOutcome.indexRaise results e =>
        let log1 := item1.execution_log ++ [searchOkMsg results]
        let item2 := { item1 with
          status := Status.failed
          execution_log := log1 ++ [researchFailMsg item e] }
        { plan := some (s.plan.set idx item2)
          error_log := [⟨researchNode, e⟩] }

/-! ## Supervisors (`DeepSearchGraph.research_supervisor` /
`writing_supervisor`) -/

/-- The supervisors' shared scan: the first item of the given task type whose
status is not `completed` (`next((task for task in plan if ...), None)`). -/
def pickNext (tt : TaskType) (plan : List PlanItem) : Option PlanItem :=
  plan.find? (fun t => decide (t.task_type = tt ∧ t.status ≠ Status.completed))

/-- `DeepSearchGraph.research_supervisor`: records the chosen item's id (or
`None`) in `current_plan_item_id`. -/
def research_supervisor (s : AgentState) : NodeUpdate :=
  { current_plan_item_id :=
      some ((pickNext TaskType.RESEARCH s.plan).map (fun it => it.item_id)) }

/-- `DeepSearchGraph.writing_supervisor`. -/
def writing_supervisor (s : AgentState) : NodeUpdate :=
  { current_plan_item_id :=
      some ((pickNext TaskType.WRITING s.plan).map (fun it => it.item_id)) }

/-! ## Plan summarizer (`DeepSearchGraph.call_plan_summarizer`) -/

/-- The f-string block built for one dependency id: description and content of
the first plan item carrying that id (empty strings when the id is absent,
modelling the generators' `''` defaults). -/
def depBlock (plan : List PlanItem) (dep : String) : String :=
  let d := (((plan.find? (fun p => decide (p.item_id = dep))).map
    (fun p => p.description)).getD "")
  let c := (((plan.find? (fun p => decide (p.item_id = dep))).map
    (fun p => p.content)).getD "")
  s!"研究任务 '{d}':\n{c}"

/-- The "no relevant material found" stub written by `call_plan_summarizer`. -/
def summarizerStub (item : PlanItem) : String :=
  let d := item.description
  s!"本章旨在探讨 '{d}'，但未能找到相关的研究资料。"

/-- One iteration of `for i, item in enumerate(updated_plan)` in
`call_plan_summarizer`, reading and writing the current (partially updated)
list.  `so topic content` models `llm.ainvoke(RESEARCH_SUMMARIZER_PROMPT
.format(topic=..., search_results_content=...)).content`. -/
def summarizeStep (so : String → String → String) (plan : List PlanItem)
    (i : Nat) : List PlanItem :=
  match plan.get? i with
  | none => plan
  | some item =>
    if item.task_type = TaskType.WRITING then
      let research_content := item.dependencies.map (depBlock plan)
      if (research_content.any (fun b => decide (b ≠ ""))) = false then
        plan.set i { item with content := summarizerStub item }
      else
        plan.set i { item with
          content := so item.description
            (String.intercalate "\n\n" research_content) }
    else plan

/-- The summarizer's index loop, indices `i, i+1, ...` for `fuel` steps. -/
def summarizeAux (so : String → String → String) :
    Nat → List PlanItem → Nat → List PlanItem
  | 0, plan, _ => plan
  | fuel + 1, plan, i => summarizeAux so fuel (summarizeStep so plan i) (i + 1)

/-- `DeepSearchGraph.call_plan_summarizer`. -/
def call_plan_summarizer (so : String → String → String) (s : AgentState) :
    NodeUpdate :=
  { plan := some (summarizeAux so s.plan.length s.plan 0) }

/-! ## Overall summary (`DeepSearchGraph.generate_overall_summary`) -/

/-- The per-chapter block of `generate_overall_summary` and of the writing
executor's `all_chapter_summaries`. -/
def chapterSummaryBlock (t : PlanItem) : String :=
  let d := t.description
  let c := t.content
  s!"章节目标: {d}\n核心内容摘要: {c}"

/-- `DeepSearchGraph.generate_overall_summary`; `oo` models the LLM call on
`OVERALL_REPORT_SUMMARIZER_PROMPT.format(all_chapter_summaries=...)`. -/
def generate_overall_summary (oo : String → String) (s : AgentState) :
    NodeUpdate :=
  let all_writing_tasks :=
    s.plan.filter (fun t => decide (t.task_type = TaskType.WRITING))
  if all_writing_tasks.isEmpty then {}
  else
    let all_chapter_summaries :=
      String.intercalate "\n\n---\n\n" (all_writing_tasks.map chapterSummaryBlock)
    { overall_outline := some (some (oo all_chapter_summaries)) }

/-! ## Citation rewriting
(`writing_executor._process_citations_and_update_state`)

The chapter text returned by the writing agent is modelled as a token list:
`Chunk.ref url` stands for one `[ref:<url>]` marker matched by the regex
`\[ref:(https?://[^\s\]]+)\]`, `Chunk.text` for the raw text between
markers.  `re.sub` with `replace_and_update_map` is then the left-to-right
fold below over the tokens. -/

/-- A piece of agent output text: plain text or one citation marker. -/
inductive Chunk
  | text (str : String)
  | ref (url : String)
deriving DecidableEq, Repr

/-- Lookup in the citation dict (`url in citation_map` / `citation_map[url]`);
the first matching key, which is the only one since keys are unique. -/
def lookupCitation (m : List (String × Citation)) (url : String) :
    Option Citation :=
  (m.find? (fun p => decide (p.1 = url))).map (fun p => p.2)

/-- Title resolution for a new url:
`llama_index_service.get_document_by_source_url(url)` is the oracle
`lookup`; its `none` models a missing source node, `some none` a node
without a `title` metadata key; both fall back to `未知标题`. -/
def resolveTitle (lookup : String → Option (Option String)) (url : String) :
    String :=
  match lookup url with
  | none => "未知标题"
  | some t => t.getD "未知标题"

/-- The replacement text `f"[{number}]({url})"`. -/
def citationText (number : Nat) (url : String) : String :=
  s!"[{number}]({url})"

/-- Registration of a new url (the `if url not in citation_map` body of
`replace_and_update_map`): the url is appended with the next number and its
resolved title, and the counter advances. -/
def registerUrl (lookup : String → Option (Option String)) (st : CitState)
    (url : String) : CitState :=
  ⟨st.citations ++ [(url, ⟨st.next_citation_number, resolveTitle lookup url, url⟩)],
   st.next_citation_number + 1⟩

/-- `citation_pattern.sub(replace_and_update_map, raw_content)`: each marker
is replaced left to right; a new url is registered (getting the number
`st.next_citation_number`) before substitution, a known url is replaced with
its registered number. -/
def processCitations (lookup : String → Option (Option String)) :
    CitState → List Chunk → List Chunk × CitState
  | st, [] => ([], st)
  | st, Chunk.text str :: rest =>
    let (out, st') := processCitations lookup st rest
    (Chunk.text str :: out, st')
  | st, Chunk.ref url :: rest =>
    match lookupCitation st.citations url with
    | some c =>
      let (out, st') := processCitations lookup st rest
      (Chunk.text (citationText c.number url) :: out, st')
    | none =>
      let st1 := registerUrl lookup st url
      let (out, st') := processCitations lookup st1 rest
      (Chunk.text (citationText st.next_citation_number url) :: out, st')

/-- The string a token list denotes (`ref` renders back as its marker; after
`processCitations` every token is text). -/
def chunkText : Chunk → String
  | Chunk.text str => str
  | Chunk.ref url => s!"[ref:{url}]"

/-- Concatenation of a token list back into the stored content string. -/
def renderChunks (chunks : List Chunk) : String :=
  String.intercalate "" (chunks.map chunkText)

/-- `writing_executor._process_citations_and_update_state`: rewrites the raw
content, stores it in the current item, marks the item completed and returns
the `plan`/`shared_context` update. -/
def process_citations_and_update_state
    (lookup : String → Option (Option String)) (raw_content : List Chunk)
    (updated_plan : List PlanItem) (item_index : Nat)
    (shared_context : CitState) : NodeUpdate :=
  let (processed, ctx) := processCitations lookup shared_context raw_content
  let plan' :=
    match updated_plan.get? item_index with
    | none => updated_plan
    | some it =>
      updated_plan.set item_index
        { it with content := renderChunks processed
                  status := Status.completed }
  { plan := some plan', shared_context := some ctx }

/-! ## Writing executor (`writing_executor.execute_writing_task`) -/

/-- The `agent_input` dict assembled by `execute_writing_task`.
`overall_outline` stays an option because `state.get("overall_outline", ...)`
returns the stored value, which the initial state sets to `None`. -/
structure AgentInput where
  input : String
  task_description : String
  overall_outline : Option String
  all_chapter_summaries : String
  previous_chapter_content : String
  revision_notes : String
deriving DecidableEq, Repr

/-- The fixed placeholder handed to the first chapter. -/
def firstChapterPlaceholder : String := "这是报告的第一章。"

/-- Lines 120-144 of `writing_executor.py`: the generation context. -/
def buildAgentInput (s : AgentState) (item : PlanItem)
    (current_item_id : String) : AgentInput :=
  let all_writing_tasks :=
    s.plan.filter (fun t => decide (t.task_type = TaskType.WRITING))
  let all_chapter_summaries :=
    String.intercalate "\n\n---\n\n" (all_writing_tasks.map chapterSummaryBlock)
  let cwti : Option Nat :=
    all_writing_tasks.findIdx? (fun t => decide (t.item_id = current_item_id))
  let previous_chapter_content :=
    match cwti with
    | some (j + 1) =>
      match all_writing_tasks.get? j with
      | some prevTask =>
        match find_plan_item s.plan prevTask.item_id with
        | some (prev, _) =>
          if prev.status = Status.completed then prev.content
          else firstChapterPlaceholder
        | none => firstChapterPlaceholder
      | none => firstChapterPlaceholder
    | _ => firstChapterPlaceholder
  { input := s.input
    task_description := item.description
    overall_outline := s.overall_outline
    all_chapter_summaries := all_chapter_summaries
    previous_chapter_content := previous_chapter_content
    revision_notes := "" }

/-- `writing_executor.execute_writing_task`.  `wo` models the tool-augmented
agent call (`agent_executor.ainvoke`); an `Except.error` is an uncaught
exception, and the two precondition violations `raise ValueError(...)`.
`updated_plan = [p.copy() for p in plan]` is the value-level identity (object
identity is treated in the mutable model below). -/
def execute_writing_task (wo : AgentInput → Except String (List Chunk))
    (lookup : String → Option (Option String)) (s : AgentState) :
    Except String NodeUpdate :=
  match s.current_plan_item_id with
  | none => Except.error "execute_writing_task: current_plan_item_id 缺失。"
  | some current_item_id =>
    match find_plan_item s.plan current_item_id with
    | none =>
      Except.error s!"execute_writing_task: 未找到ID为 {current_item_id} 的任务。"
    | some (item, item_index) =>
      let agent_input := buildAgentInput s item current_item_id
      match wo agent_input with
      | Except.error e => Except.error e
      | Except.ok raw_content =>
        Except.ok (process_citations_and_update_state lookup raw_content
          s.plan item_index s.shared_context)

/-! ## Final assembler (`writing_executor.final_assembler`) -/

/-- Stable insertion of a citation before the first strictly greater number
(numbers in the registry are unique, see `citWF`). -/
def insertCitation (c : Citation) : List Citation → List Citation
  | [] => [c]
  | d :: rest =>
    if c.number < d.number then c :: d :: rest else d :: insertCitation c rest

/-- `sorted(citation_map.values(), key=lambda c: c['number'])`. -/
def sortCitations (l : List Citation) : List Citation :=
  l.foldr insertCitation []

/-- One rendered reference line. -/
def referenceLine (c : Citation) : String :=
  let n := c.number
  let t := c.title
  let u := c.url
  s!"[{n}] {t}. Available: {u}"

/-- `writing_executor.final_assembler`. -/
def final_assembler (s : AgentState) : NodeUpdate :=
  let citation_map := s.shared_context.citations
  if citation_map.isEmpty then
    { final_answer := some "", final_sources := some [] }
  else
    let sorted := sortCitations (citation_map.map (fun p => p.2))
    let lines := "\n\n---\n\n## 参考文献" :: sorted.map referenceLine
    { final_answer := some (String.intercalate "\n" lines)
      final_sources := some sorted }

/-! ## The compiled graph (`DeepSearchGraph._build_graph`)

The graph after `planner` is two supervisor/executor loops with the
summarizers between them and the assembler at the end; the loops below follow
the conditional edges exactly.  `fuel` bounds the number of dispatch
iterations: running out of fuel is reported as divergence (`diverged`), which
models the unbounded re-dispatch loop not terminating.  Each iteration
records a `begin` event when the executor is entered and a `resolve` event
carrying the item's status in the updated plan when it returns. -/

/-- Observation events of one run, for the ordering guarantees. -/
inductive Event
  | begin (id : String)
  | resolve (id : String) (st : Status)
deriving DecidableEq, Repr

/-- The id an event names. -/
def eventId : Event → String
  | Event.begin id => id
  | Event.resolve id _ => id

/-- The research dispatch loop
(`research_supervisor → route_research_action → research_executor → ...`);
`ro k` is the outcome of the `k`-th research execution. -/
def researchLoop (ro : Nat → SearchOutcome) :
    Nat → Nat → AgentState → AgentState × List Event × Bool
  | 0, _, s => (s, [], false)
  | fuel + 1, k, s =>
    match pickNext TaskType.RESEARCH s.plan with
    | none => (applyUpdate s (research_supervisor s), [], true)
    | some item =>
      let s1 := applyUpdate s (research_supervisor s)
      let s2 := applyUpdate s1 (execute_research_task (ro k) s1)
      let st := statusOf s2.plan item.item_id
      let (s3, tr, fl) := researchLoop ro fuel (k + 1) s2
      (s3, Event.begin item.item_id :: Event.resolve item.item_id st :: tr, fl)

/-- The writing dispatch loop
(`writing_supervisor → route_writing_action → writing_executor → ...`);
an executor exception aborts the whole loop. -/
def writingLoop (wo : AgentInput → Except String (List Chunk))
    (lookup : String → Option (Option String)) :
    Nat → AgentState → Except String (AgentState × List Event × Bool)
  | 0, s => Except.ok (s, [], false)
  | fuel + 1, s =>
    match pickNext TaskType.WRITING s.plan with
    | none => Except.ok (applyUpdate s (writing_supervisor s), [], true)
    | some item =>
      let s1 := applyUpdate s (writing_supervisor s)
      match execute_writing_task wo lookup s1 with
      | Except.error e => Except.error e
      | Except.ok u =>
        let s2 := applyUpdate s1 u
        let st := statusOf s2.plan item.item_id
        match writingLoop wo lookup fuel s2 with
        | Except.error e => Except.error e
        | Except.ok (s3, tr, fl) =>
          Except.ok (s3,
            Event.begin item.item_id :: Event.resolve item.item_id st :: tr,
            fl)

/-- Result of one graph invocation after the planner. -/
inductive RunOutcome
  | diverged
  | raised (e : String)
  | done (s : AgentState) (trace : List Event)
deriving DecidableEq, Repr

/-- The compiled graph from the `research_supervisor` entry on (the state
`s0` is the state right after `planner`, whose items all carry status
`pending`): research loop, `plan_summarizer`, `generate_overall_summary`,
writing loop, `final_assembler`. -/
def runGraph (fuelR fuelW : Nat) (ro : Nat → SearchOutcome)
    (so : String → String → String) (oo : String → String)
    (wo : AgentInput → Except String (List Chunk))
    (lookup : String → Option (Option String)) (s0 : AgentState) :
    RunOutcome :=
  match researchLoop ro fuelR 0 s0 with
  | (s1, trR, f1) =>
    if f1 = false then RunOutcome.diverged
    else
      let s2 := applyUpdate s1 (call_plan_summarizer so s1)
      let s3 := applyUpdate s2 (generate_overall_summary oo s2)
      match writingLoop wo lookup fuelW s3 with
      | Except.error e => RunOutcome.raised e
      | Except.ok (s4, trW, f2) =>
        if f2 = false then RunOutcome.diverged
        else
          let s5 := applyUpdate s4 (final_assembler s4)
          RunOutcome.done s5 (trR ++ trW)

/-! ## Top-level surface (`angent.DeepSearchAgent.search_and_generate_report`) -/

/-- The result dict of `search_and_generate_report`. -/
structure AgentResult where
  success : Bool
  report : String
  sources : List Citation
  outline : Option String
  plan : List PlanItem
  errors : List ErrorEntry
  error : Option String := none
deriving DecidableEq, Repr

/-- `DeepSearchAgent.search_and_generate_report` mapped over a run outcome:
the `try` body on `done`, the `except Exception` handler on `raised`.
`none` models the call not returning (the graph recursing forever). -/
def search_and_generate_report (run : RunOutcome) : Option AgentResult :=
  match run with
  | RunOutcome.diverged => none
  | RunOutcome.raised e =>
    some { success := false
           error := some e
           report := ""
           sources := []
           outline := some ""
           plan := []
           errors := [⟨"main", e⟩] }
  | RunOutcome.done s _ =>
    some { success := true
           report := s.final_answer
           sources := s.final_sources
           outline := s.overall_outline
           plan := s.plan
           errors := s.error_log }

/-! ## Object-identity (mutable) model of the plan transitions

The pure definitions above give the value-level behaviour.  The claims about
copy-on-write are about Python object identity, so here the same transitions
are modelled over an explicit store: a plan is a list of *addresses* of item
dicts, an item's `execution_log` field is an *address* of a string list, and
`list(plan)` / `dict.copy()` are translated by their actual semantics (a new
container with the same element addresses / a new dict cell whose field
values — including the log address — are copied). -/

/-- An item dict cell: `PlanItem` with `execution_log` as the address of the
shared log list. -/
structure HItem where
  item_id : String
  task_type : TaskType
  description : String := ""
  dependencies : List String := []
  status : Status := Status.pending
  content : String := ""
  summary : Option String := none
  execution_log : Nat := 0
  evaluation_results : Option String := none
  attempt_count : Nat := 0
deriving DecidableEq, Repr

/-- The store: item dict cells and log list cells, addressed by index. -/
structure PyHeap where
  items : List HItem
  logs : List (List String)
deriving DecidableEq, Repr

/-- Mutation of the item cell at an address. -/
def setItem (h : PyHeap) (a : Nat) (f : HItem → HItem) : PyHeap :=
  match h.items.get? a with
  | none => h
  | some it => { h with items := h.items.set a (f it) }

/-- `item['execution_log'].append(line)`: mutation of the shared log cell. -/
def appendLog (h : PyHeap) (r : Nat) (line : String) : PyHeap :=
  match h.logs.get? r with
  | none => h
  | some l => { h with logs := h.logs.set r (l ++ [line]) }

/-- Dereferencing a plan (a list of item addresses). -/
def derefPlan (h : PyHeap) (refs : List Nat) : List HItem :=
  refs.filterMap (fun a => h.items.get? a)

/-- `_find_plan_item` over dereferenced addresses. -/
def findHItem : List HItem → String → Option (HItem × Nat)
  | [], _ => none
  | item :: rest, id =>
    if item.item_id = id then some (item, 0)
    else (findHItem rest id).map (fun p => (p.1, p.2 + 1))

/-- One outer-loop iteration of `_validate_and_correct_plan` in the mutable
model: `corrected_plan[i]['dependencies'] = corrected_deps` writes through
the shared address, mutating the caller's item dict. -/
def validateMutStep (researchIds allIds : List String)
    (acc : PyHeap × List String) (a : Nat) : PyHeap × List String :=
  let (h, errs) := acc
  match h.items.get? a with
  | none => acc
  | some it =>
    if it.task_type = TaskType.WRITING then
      let (ds, es) := correctDeps it.item_id allIds researchIds it.dependencies
      (setItem h a (fun cell => { cell with dependencies := ds }), errs ++ es)
    else acc

/-- `_validate_and_correct_plan` in the mutable model:
`corrected_plan = list(plan)` is a new list container holding the *same*
item addresses, and the loop mutates those shared cells in place. -/
def validateMut (h : PyHeap) (refs : List Nat) :
    PyHeap × List Nat × List String :=
  let corrected_refs := refs
  let derefed := derefPlan h corrected_refs
  let researchIds :=
    (derefed.filter (fun it => decide (it.task_type = TaskType.RESEARCH))).map
      (fun it => it.item_id)
  let allIds := derefed.map (fun it => it.item_id)
  let (h', errs) :=
    corrected_refs.foldl (validateMutStep researchIds allIds) (h, [])
  (h', corrected_refs, errs)

/-- `updated_plan = [p.copy() for p in plan]` in the mutable model: fresh item
cells appended to the store, field values copied — including the
`execution_log` *address*, so the log list stays shared with the original
item. -/
def copyPlan (h : PyHeap) (refs : List Nat) : PyHeap × List Nat :=
  let derefed := derefPlan h refs
  let base := h.items.length
  ({ h with items := h.items ++ derefed },
   (List.range refs.length).map (fun i => base + i))

/-- `researchFailMsg` over an item cell. -/
def researchFailMsg' (item : HItem) (e : String) : String :=
  let d := item.description
  s!"执行研究任务 '{d}' 时出错: {e}"

/-- `research_executor.execute_research_task` in the mutable model (same
control flow as the pure model; the `plan` component of the returned update
is the fresh address list). -/
def execute_research_task_mut (outcome : SearchOutcome)
    (current : Option String) (h : PyHeap) (refs : List Nat) :
    PyHeap × Option (List Nat) × List ErrorEntry :=
  match current with
  | none => (h, none, [⟨researchNode, "current_plan_item_id 缺失"⟩])
  | some id =>
    match findHItem (derefPlan h refs) id with
    | none => (h, none, [⟨researchNode, s!"未找到ID为 {id} 的任务。"⟩])
    | some (item, idx) =>
      let (h1, newRefs) := copyPlan h refs
      let addr := h.items.length + idx
      let h2 := setItem h1 addr (fun it => { it with status := Status.in_progress })
      match outcome with
      | SearchOutcome.ok results =>
        let h3 := appendLog h2 item.execution_log (searchOkMsg results)
        let snippets := snippetBlocks results
        let raw := if snippets.isEmpty then noInfoSentinel
                   else String.intercalate "\n\n---\n\n" snippets
        let h4 := setItem h3 addr (fun it =>
          { it with content := raw, status := Status.completed })
        let h5 := appendLog h4 item.execution_log "研究任务完成，已存储原始网页片段。"
        (h5, some newRefs, [])
      | SearchOutcome.searchRaise e =>
        let h3 := setItem h2 addr (fun it => { it with status := Status.failed })
        let h4 := appendLog h3 item.execution_log (researchFailMsg' item e)
        (h4, some newRefs, [⟨researchNode, e⟩])
      | SearchOutcome.indexRaise results e =>
        let h3 := appendLog h2 item.execution_log (searchOkMsg results)
        let h4 := setItem h3 addr (fun it => { it with status := Status.failed })
        let h5 := appendLog h4 item.execution_log (researchFailMsg' item e)
        (h5, some newRefs, [⟨researchNode, e⟩])

/-- The writing executor's plan update in the mutable model
(`updated_plan = [p.copy() for p in plan]` followed by
`updated_plan[item_index]['content'] = ...; updated_plan[item_index]
['status'] = 'completed'` inside `_process_citations_and_update_state`). -/
def writing_update_mut (h : PyHeap) (refs : List Nat) (item_index : Nat)
    (processed_content : String) : PyHeap × List Nat :=
  let (h1, newRefs) := copyPlan h refs
  let h2 := setItem h1 (h.items.length + item_index) (fun it =>
    { it with content := processed_content, status := Status.completed })
  (h2, newRefs)

/-- `depBlock` over the mutable plan. -/
def depBlockH (h : PyHeap) (refs : List Nat) (dep : String) : String :=
  let derefed := derefPlan h refs
  let d := (((derefed.find? (fun p => decide (p.item_id = dep))).map
    (fun p => p.description)).getD "")
  let c := (((derefed.find? (fun p => decide (p.item_id = dep))).map
    (fun p => p.content)).getD "")
  s!"研究任务 '{d}':\n{c}"

/-- The stub text over an item cell. -/
def summarizerStubH (item : HItem) : String :=
  let d := item.description
  s!"本章旨在探讨 '{d}'，但未能找到相关的研究资料。"

/-- One summarizer-loop iteration in the mutable model:
`updated_plan = list(plan)` shares the item cells, and
`updated_plan[i]['content'] = ...` writes through them. -/
def summarizeMutStep (so : String → String → String) (refs : List Nat)
    (h : PyHeap) (i : Nat) : PyHeap :=
  match refs.get? i with
  | none => h
  | some a =>
    match h.items.get? a with
    | none => h
    | some item =>
      if item.task_type = TaskType.WRITING then
        let research_content := item.dependencies.map (depBlockH h refs)
        if (research_content.any (fun b => decide (b ≠ ""))) = false then
          setItem h a (fun it => { it with content := summarizerStubH item })
        else
          let newContent :=
            so item.description (String.intercalate "\n\n" research_content)
          setItem h a (fun it => { it with content := newContent })
      else h

/-- `call_plan_summarizer` in the mutable model; the returned address list is
the same one (`list(plan)` copies only the container). -/
def summarizeMut (so : String → String → String) (h : PyHeap)
    (refs : List Nat) : PyHeap × List Nat :=
  ((List.range refs.length).foldl (summarizeMutStep so refs) h, refs)

/-! ## Concrete inputs used by the scenario conjuncts and witnesses -/

/-- The research item of the validation scenario. -/
def c3r1 : PlanItem := { item_id := "r1", task_type := TaskType.RESEARCH }

/-- The writing item of the validation scenario, depending on `r1` and on the
nonexistent `ghost`. -/
def c3w1 : PlanItem :=
  { item_id := "w1", task_type := TaskType.WRITING
    dependencies := ["r1", "ghost"] }

/-- The validation scenario's plan. -/
def c3Plan : List PlanItem := [c3r1, c3w1]

/-- The citation scenario's chapter text
`"See [ref:https://a.com] and [ref:https://b.com] and again [ref:https://a.com]"`
tokenised at its three markers. -/
def c1Chunks : List Chunk :=
  [Chunk.text "See ", Chunk.ref "https://a.com", Chunk.text " and ",
   Chunk.ref "https://b.com", Chunk.text " and again ",
   Chunk.ref "https://a.com"]

/-- Well-formedness of the citation registry: the counter is one past the
number of registered urls, the url registered `k`-th carries number `k + 1`
(so numbers are dense from 1 in first-occurrence order), and no url is
registered twice.  The initial state `{}` satisfies it. -/
def citWF (st : CitState) : Prop :=
  st.next_citation_number = st.citations.length + 1
  ∧ (∀ k p, st.citations.get? k = some p → p.2.number = k + 1)
  ∧ (st.citations.map (fun p => p.1)).Nodup

/-- Rendering of a token against a fixed registry: a marker becomes the
numbered link of its url's registered citation. -/
def renderWith (m : List (String × Citation)) : Chunk → Chunk
  | Chunk.text str => Chunk.text str
  | Chunk.ref url =>
    match lookupCitation m url with
    | some c => Chunk.text (citationText c.number url)
    | none => Chunk.ref url

/-- A trace is a sequence of matched `begin`/`resolve` pairs: the executor
for a task returns before the next task is dispatched (one task in flight). -/
def wellPaired : List Event → Bool
  | [] => true
  | Event.begin i :: Event.resolve j _ :: rest => decide (i = j) && wellPaired rest
  | _ => false

/-- A pending research item, for the failure-containment witness. -/
def c5Item : PlanItem :=
  { item_id := "r1", task_type := TaskType.RESEARCH, description := "topic" }

/-- State dispatching `c5Item`, for the failure-containment witness. -/
def c5S : AgentState :=
  { plan := [c5Item], current_plan_item_id := some "r1" }

/-- A state with no current item, for the writing-fault and research-guard
witnesses. -/
def c6S : AgentState := { plan := [c5Item] }

/-- A pending research item, for the content-postcondition witness. -/
def c7Item : PlanItem :=
  { item_id := "r7", task_type := TaskType.RESEARCH, description := "t7" }

/-- State dispatching `c7Item`, for the content-postcondition witness. -/
def c7S : AgentState :=
  { plan := [c7Item], current_plan_item_id := some "r7" }

/-- A state whose current id names no plan item, for the research-guard
witness. -/
def c10S : AgentState :=
  { plan := [c7Item], current_plan_item_id := some "nope" }

/-- A completed research item that produced no content, for the
plan-summarizer scenario. -/
def c8r1 : PlanItem :=
  { item_id := "r1", task_type := TaskType.RESEARCH, description := "dr1"
    status := Status.completed, content := "" }

/-- A writing item whose only RESEARCH dependency produced no content. -/
def c8w1 : PlanItem :=
  { item_id := "w1", task_type := TaskType.WRITING, description := "chapter"
    dependencies := ["r1"] }

/-- The plan-summarizer scenario state. -/
def c8S : AgentState := { plan := [c8r1, c8w1] }

/-- First research item of the full-run ordering scenario. -/
def c2R1 : PlanItem :=
  { item_id := "r1", task_type := TaskType.RESEARCH, description := "t1" }

/-- Second research item of the full-run ordering scenario. -/
def c2R2 : PlanItem :=
  { item_id := "r2", task_type := TaskType.RESEARCH, description := "t2" }

/-- First writing item of the full-run ordering scenario. -/
def c2W1 : PlanItem :=
  { item_id := "w1", task_type := TaskType.WRITING, description := "c1"
    dependencies := ["r1"] }

/-- Second writing item of the full-run ordering scenario. -/
def c2W2 : PlanItem :=
  { item_id := "w2", task_type := TaskType.WRITING, description := "c2"
    dependencies := ["r2"] }

/-- The post-planner state of the full-run ordering scenario: two research
items then two writing items, all pending. -/
def c2S0 : AgentState := { plan := [c2R1, c2R2, c2W1, c2W2] }

/-- Search oracle of the ordering scenario: every search succeeds with no
results. -/
def c2ro : Nat → SearchOutcome := fun _ => SearchOutcome.ok []

/-- Chapter-summary LLM oracle of the ordering scenario. -/
def c2so : String → String → String := fun _ _ => "S"

/-- Overall-outline LLM oracle of the ordering scenario. -/
def c2oo : String → String := fun _ => "O"

/-- Writer-agent oracle of the ordering scenario: every chapter comes back
as the plain text `X`. -/
def c2wo : AgentInput → Except String (List Chunk) :=
  fun _ => Except.ok [Chunk.text "X"]

/-- Document-index oracle of the ordering scenario: no url resolves. -/
def c2lookup : String → Option (Option String) := fun _ => none

/-- The full graph run of the ordering scenario. -/
def c2Run : RunOutcome := runGraph 3 3 c2ro c2so c2oo c2wo c2lookup c2S0

/-- The final state of the ordering scenario's run. -/
def c2Sfin : AgentState :=
  match c2Run with
  | RunOutcome.done s _ => s
  | _ => {}

/-- The event trace of the ordering scenario's run: both research tasks in
plan order, then both writing tasks in plan order, each begun and resolved
completed before the next begins. -/
def c2Trace : List Event :=
  [Event.begin "r1", Event.resolve "r1" Status.completed,
   Event.begin "r2", Event.resolve "r2" Status.completed,
   Event.begin "w1", Event.resolve "w1" Status.completed,
   Event.begin "w2", Event.resolve "w2" Status.completed]

/-- A two-item store for the copy-on-write counterexample: `r1` and `w1`
item cells at addresses 0 and 1, log cells at the same indices. -/
def c9Heap : PyHeap :=
  { items :=
      [{ item_id := "r1", task_type := TaskType.RESEARCH, execution_log := 0 },
       { item_id := "w1", task_type := TaskType.WRITING
         dependencies := ["r1", "ghost"], execution_log := 1 }]
    logs := [[], []] }

/-- The plan held by the caller before the transition: the addresses of both
item cells. -/
def c9Refs : List Nat := [0, 1]

/-- A store for the summarizer in-place-mutation conjunct: `r1` completed
with content, `w1` depending on it. -/
def c9SumHeap : PyHeap :=
  { items :=
      [{ item_id := "r1", task_type := TaskType.RESEARCH
         status := Status.completed, content := "found", execution_log := 0 },
       { item_id := "w1", task_type := TaskType.WRITING
         dependencies := ["r1"], execution_log := 1 }]
    logs := [[], []] }

end DeepResearch

namespace DeepResearch

/-! ## Lemmas: plan validation (claims C3, C4) -/

theorem researchTaskIds_subset (plan : List PlanItem) :
    ∀ x ∈ researchTaskIds plan, x ∈ allTaskIds plan := by
  intro x hx
  simp only [researchTaskIds, List.mem_map, List.mem_filter] at hx
  obtain ⟨it, ⟨hmem, -⟩, rfl⟩ := hx
  exact List.mem_map.mpr ⟨it, hmem, rfl⟩

theorem mem_researchTaskIds_iff (plan : List PlanItem) (d : String) :
    d ∈ researchTaskIds plan ↔
      ∃ r ∈ plan, r.item_id = d ∧ r.task_type = TaskType.RESEARCH := by
  simp only [researchTaskIds, List.mem_map, List.mem_filter, decide_eq_true_eq]
  constructor
  · rintro ⟨it, ⟨hmem, hty⟩, rfl⟩
    exact ⟨it, hmem, rfl, hty⟩
  · rintro ⟨it, hmem, rfl, hty⟩
    exact ⟨it, ⟨hmem, hty⟩, rfl⟩

theorem correctDeps_fst (wid : String) (a r : List String)
    (hsub : ∀ x ∈ r, x ∈ a) :
    ∀ ds : List String,
      (correctDeps wid a r ds).1 = ds.filter (fun d => decide (d ∈ r))
  | [] => rfl
  | dep :: rest => by
    have ih := correctDeps_fst wid a r hsub rest
    by_cases hda : dep ∈ a
    · by_cases hdr : dep ∈ r
      · simp [correctDeps, hda, hdr, ih]
      · simp [correctDeps, hda, hdr, ih]
    · have hdr : dep ∉ r := fun h => hda (hsub dep h)
      simp [correctDeps, hda, hdr, ih]

theorem correctDeps_snd_length (wid : String) (a r : List String)
    (hsub : ∀ x ∈ r, x ∈ a) :
    ∀ ds : List String,
      (correctDeps wid a r ds).2.length =
        (ds.filter (fun d => decide (d ∉ r))).length
  | [] => rfl
  | dep :: rest => by
    have ih := correctDeps_snd_length wid a r hsub rest
    by_cases hda : dep ∈ a
    · by_cases hdr : dep ∈ r
      · simp [correctDeps, hda, hdr, ih]
      · simp [correctDeps, hda, hdr, ih]
    · have hdr : dep ∉ r := fun h => hda (hsub dep h)
      simp [correctDeps, hda, hdr, ih]

theorem correctDeps_eq_self (wid : String) (a r : List String) :
    ∀ ds : List String, (∀ d ∈ ds, d ∈ a ∧ d ∈ r) →
      correctDeps wid a r ds = (ds, [])
  | [], _ => rfl
  | dep :: rest, h => by
    have hd := h dep (List.mem_cons_self dep rest)
    have ih := correctDeps_eq_self wid a r rest
      (fun d hmem => h d (List.mem_cons_of_mem dep hmem))
    simp [correctDeps, hd.1, hd.2, ih]

theorem correctDeps_kept_mem (wid : String) (a r : List String) :
    ∀ ds : List String, ∀ d ∈ (correctDeps wid a r ds).1, d ∈ a ∧ d ∈ r
  | [], d, h => by simp [correctDeps] at h
  | dep :: rest, d, h => by
    have ih := correctDeps_kept_mem wid a r rest
    by_cases hda : dep ∈ a
    · by_cases hdr : dep ∈ r
      · simp only [correctDeps] at h
        rw [if_neg (not_not_intro hda), if_neg (not_not_intro hdr)] at h
        rcases List.mem_cons.mp h with rfl | h2
        · exact ⟨hda, hdr⟩
        · exact ih d h2
      · simp only [correctDeps] at h
        rw [if_neg (not_not_intro hda), if_pos hdr] at h
        exact ih d h
    · simp only [correctDeps] at h
      rw [if_pos hda] at h
      exact ih d h

theorem correctItem_item_id (a r : List String) (it : PlanItem) :
    ((correctItem a r it).1).item_id = it.item_id := by
  by_cases h : it.task_type = TaskType.WRITING <;> simp [correctItem, h]

theorem correctItem_task_type (a r : List String) (it : PlanItem) :
    ((correctItem a r it).1).task_type = it.task_type := by
  by_cases h : it.task_type = TaskType.WRITING <;> simp [correctItem, h]

theorem correctItem_non_writing (a r : List String) (it : PlanItem)
    (h : it.task_type ≠ TaskType.WRITING) : correctItem a r it = (it, []) := by
  simp [correctItem, h]

theorem correctItem_writing (a r : List String) (it : PlanItem)
    (h : it.task_type = TaskType.WRITING) :
    correctItem a r it =
      ({ it with dependencies := (correctDeps it.item_id a r it.dependencies).1 },
       (correctDeps it.item_id a r it.dependencies).2) := by
  simp [correctItem, h]

theorem validate_allTaskIds (plan : List PlanItem) :
    allTaskIds (validate_and_correct_plan plan).1 = allTaskIds plan := by
  simp only [validate_and_correct_plan, allTaskIds, List.map_map]
  exact List.map_congr_left (fun it _ => correctItem_item_id _ _ it)

theorem researchTaskIds_map_preserve (f : PlanItem → PlanItem)
    (hid : ∀ it, (f it).item_id = it.item_id)
    (hty : ∀ it, (f it).task_type = it.task_type) :
    ∀ plan : List PlanItem, researchTaskIds (plan.map f) = researchTaskIds plan
  | [] => rfl
  | it :: rest => by
    have ih := researchTaskIds_map_preserve f hid hty rest
    simp only [researchTaskIds] at ih ⊢
    simp only [List.map_cons, List.filter_cons, hty it]
    by_cases hr : it.task_type = TaskType.RESEARCH
    · rw [if_pos (by simp [hr]), if_pos (by simp [hr])]
      simp only [List.map_cons, hid it]
      exact congrArg _ ih
    · rw [if_neg (by simp [hr]), if_neg (by simp [hr])]
      exact ih

theorem validate_researchTaskIds (plan : List PlanItem) :
    researchTaskIds (validate_and_correct_plan plan).1 = researchTaskIds plan := by
  simp only [validate_and_correct_plan]
  exact researchTaskIds_map_preserve _
    (correctItem_item_id _ _) (correctItem_task_type _ _) plan

theorem validate_get? (plan : List PlanItem) (i : Nat) :
    (validate_and_correct_plan plan).1.get? i =
      (plan.get? i).map (fun it =>
        (correctItem (allTaskIds plan) (researchTaskIds plan) it).1) := by
  simp [validate_and_correct_plan, List.get?_eq_getElem?, List.getElem?_map]

theorem correctItem_of_valid (a r : List String) (it' : PlanItem)
    (h : ∀ d ∈ it'.dependencies, d ∈ a ∧ d ∈ r) :
    correctItem a r it' = (it', []) := by
  by_cases hw : it'.task_type = TaskType.WRITING
  · rw [correctItem_writing a r it' hw,
      correctDeps_eq_self it'.item_id a r it'.dependencies h]
  · exact correctItem_non_writing a r it' hw

theorem map_correct_of_all (a r : List String) (l : List PlanItem)
    (h : ∀ it ∈ l, correctItem a r it = (it, [])) :
    l.map (fun it => (correctItem a r it).1) = l ∧
      (l.map (fun it => (correctItem a r it).2)).flatten = [] := by
  induction l with
  | nil => exact ⟨rfl, rfl⟩
  | cons x xs ih =>
    have hx := h x (List.mem_cons_self x xs)
    have ihh := ih (fun it hmem => h it (List.mem_cons_of_mem x hmem))
    simp [hx, ihh.1, ihh.2]

/-- C3: plan validation postcondition.  For every plan: (1) items that are
not WRITING are returned unchanged at their position; (2) every WRITING item
keeps, in order, exactly those dependency ids that name some RESEARCH item of
the plan; (3) one error is recorded per dropped id; (4) in the output every
WRITING item's dependencies name a RESEARCH item present in the input plan;
(5) the `[r1, w1 ↦ [r1, ghost]]` scenario yields `w1.dependencies = [r1]` and
exactly the one `ghost` error. -/
theorem c3_plan_validation_postcondition :
    (∀ (plan : List PlanItem) (i : Nat) (it : PlanItem),
        plan.get? i = some it → it.task_type ≠ TaskType.WRITING →
        (validate_and_correct_plan plan).1.get? i = some it)
    ∧ (∀ (plan : List PlanItem) (i : Nat) (it : PlanItem),
        plan.get? i = some it → it.task_type = TaskType.WRITING →
        (validate_and_correct_plan plan).1.get? i =
          some { it with dependencies :=
            it.dependencies.filter (fun d => decide (d ∈ researchTaskIds plan)) })
    ∧ (∀ plan : List PlanItem,
        (validate_and_correct_plan plan).2.length =
          (plan.map (fun it =>
            if it.task_type = TaskType.WRITING then
              (it.dependencies.filter
                (fun d => decide (d ∉ researchTaskIds plan))).length
            else 0)).sum)
    ∧ (∀ (plan : List PlanItem) (it' : PlanItem),
        it' ∈ (validate_and_correct_plan plan).1 →
        it'.task_type = TaskType.WRITING →
        ∀ d ∈ it'.dependencies,
          ∃ r ∈ plan, r.item_id = d ∧ r.task_type = TaskType.RESEARCH)
    ∧ validate_and_correct_plan c3Plan =
        ([c3r1, { c3w1 with dependencies := ["r1"] }],
         ["依赖 'ghost' 不存在，已移除。"]) := by
  refine ⟨?_, ?_, ?_, ?_, by decide⟩
  · intro plan i it hget hty
    rw [validate_get?, hget]
    show some ((correctItem (allTaskIds plan) (researchTaskIds plan) it).1)
      = some it
    rw [correctItem_non_writing _ _ it hty]
  · intro plan i it hget hty
    rw [validate_get?, hget]
    show some ((correctItem (allTaskIds plan) (researchTaskIds plan) it).1)
      = _
    rw [correctItem_writing _ _ it hty]
    show some ({ it with dependencies :=
      (correctDeps it.item_id (allTaskIds plan) (researchTaskIds plan)
        it.dependencies).1 }) = _
    rw [correctDeps_fst it.item_id _ _ (researchTaskIds_subset plan)
      it.dependencies]
  · intro plan
    simp only [validate_and_correct_plan]
    rw [List.length_flatten, List.map_map]
    refine congrArg _ (List.map_congr_left ?_)
    intro it _
    by_cases hw : it.task_type = TaskType.WRITING
    · simp only [Function.comp, correctItem_writing _ _ it hw, hw, if_pos]
      exact correctDeps_snd_length it.item_id _ _
        (researchTaskIds_subset plan) it.dependencies
    · simp [Function.comp, correctItem_non_writing _ _ it hw, hw]
  · intro plan it' hmem hty d hd
    simp only [validate_and_correct_plan, List.mem_map] at hmem
    obtain ⟨it, hit, rfl⟩ := hmem
    by_cases hw : it.task_type = TaskType.WRITING
    · rw [correctItem_writing _ _ it hw] at hd
      have hkept := correctDeps_kept_mem it.item_id _ _ it.dependencies d hd
      exact (mem_researchTaskIds_iff plan d).mp hkept.2
    · rw [correctItem_non_writing _ _ it hw] at hty
      exact absurd hty hw

/-- Witness for C3: applying the postcondition to the scenario plan's WRITING
item. -/
theorem c3_witness :
    (validate_and_correct_plan c3Plan).1.get? 1 =
      some { c3w1 with dependencies :=
        c3w1.dependencies.filter (fun d => decide (d ∈ researchTaskIds c3Plan)) } :=
  c3_plan_validation_postcondition.2.1 c3Plan 1 c3w1 rfl (by decide)

/-- C4: plan validation is idempotent — re-validating the corrected plan
returns it unchanged and records no errors. -/
theorem c4_validation_idempotent (plan : List PlanItem) :
    validate_and_correct_plan (validate_and_correct_plan plan).1 =
      ((validate_and_correct_plan plan).1, []) := by
  have ha := validate_allTaskIds plan
  have hr := validate_researchTaskIds plan
  have hvalid : ∀ it' ∈ (validate_and_correct_plan plan).1,
      correctItem (allTaskIds plan) (researchTaskIds plan) it' = (it', []) := by
    intro it' hmem
    simp only [validate_and_correct_plan, List.mem_map] at hmem
    obtain ⟨it, -, rfl⟩ := hmem
    by_cases hw : it.task_type = TaskType.WRITING
    · rw [correctItem_writing _ _ it hw]
      refine correctItem_of_valid _ _ _ ?_
      intro d hd
      exact correctDeps_kept_mem it.item_id _ _ it.dependencies d hd
    · rw [correctItem_non_writing _ _ it hw]
      exact correctItem_non_writing _ _ it hw
  have hmc := map_correct_of_all (allTaskIds plan) (researchTaskIds plan)
    (validate_and_correct_plan plan).1 hvalid
  set P' := (validate_and_correct_plan plan).1 with hP'
  have h1 : validate_and_correct_plan P' =
      (P'.map (fun it =>
        (correctItem (allTaskIds P') (researchTaskIds P') it).1),
       (P'.map (fun it =>
        (correctItem (allTaskIds P') (researchTaskIds P') it).2)).flatten) := rfl
  rw [h1, ha, hr, hmc.1, hmc.2]

/-! ## Lemmas: citation rewriting (claim C1) -/

theorem lookupCitation_cons (p : String × Citation)
    (m : List (String × Citation)) (url : String) :
    lookupCitation (p :: m) url =
      if p.1 = url then some p.2 else lookupCitation m url := by
  by_cases hp : p.1 = url
  · have hd : decide (p.1 = url) = true := by simp [hp]
    simp [lookupCitation, List.find?, hd, hp]
  · have hd : decide (p.1 = url) = false := by simp [hp]
    simp [lookupCitation, List.find?, hd, hp]

theorem lookupCitation_append_left (m1 m2 : List (String × Citation))
    (url : String) (c : Citation) (h : lookupCitation m1 url = some c) :
    lookupCitation (m1 ++ m2) url = some c := by
  induction m1 with
  | nil => simp [lookupCitation] at h
  | cons p rest ih =>
    rw [lookupCitation_cons] at h
    rw [List.cons_append, lookupCitation_cons]
    by_cases hp : p.1 = url
    · rwa [if_pos hp] at h ⊢
    · rw [if_neg hp] at h ⊢
      exact ih h

theorem lookupCitation_none_forall (m : List (String × Citation))
    (url : String) (h : lookupCitation m url = none) :
    ∀ p ∈ m, p.1 ≠ url := by
  intro p hp
  simp only [lookupCitation, Option.map_eq_none'] at h
  have := List.find?_eq_none.mp h p hp
  simpa using this

theorem lookupCitation_append_new (m : List (String × Citation))
    (url : String) (c : Citation) (h : lookupCitation m url = none) :
    lookupCitation (m ++ [(url, c)]) url = some c := by
  induction m with
  | nil =>
    rw [List.nil_append, lookupCitation_cons, if_pos rfl]
  | cons p rest ih =>
    rw [lookupCitation_cons] at h
    rw [List.cons_append, lookupCitation_cons]
    by_cases hp : p.1 = url
    · rw [if_pos hp] at h
      exact absurd h (by simp)
    · rw [if_neg hp] at h ⊢
      exact ih h

theorem citWF_registerUrl (lookup : String → Option (Option String))
    (st : CitState) (url : String) (hwf : citWF st)
    (hlook : lookupCitation st.citations url = none) :
    citWF (registerUrl lookup st url) := by
  obtain ⟨hn, hnum, hnd⟩ := hwf
  refine ⟨by simp [registerUrl, hn], ?_, ?_⟩
  · intro k p hk
    simp only [registerUrl] at hk
    rcases Nat.lt_or_ge k st.citations.length with hlt | hge
    · rw [List.get?_append hlt] at hk
      exact hnum k p hk
    · have hk' : k = st.citations.length := by
        have hlen : k < st.citations.length + 1 := by
          by_contra hcon
          push_neg at hcon
          rw [List.get?_eq_none.mpr (by simpa using hcon)] at hk
          exact Option.noConfusion hk
        omega
      subst hk'
      rw [List.get?_concat_length] at hk
      cases hk
      simp [hn]
  · simp only [registerUrl, List.map_append, List.map_cons, List.map_nil]
    rw [List.nodup_append]
    refine ⟨hnd, List.nodup_singleton _, ?_⟩
    intro x hx hx1
    simp only [List.mem_singleton] at hx1
    obtain ⟨p, hp, hp1⟩ := List.mem_map.mp hx
    exact lookupCitation_none_forall st.citations url hlook p hp
      (hp1.trans hx1)

theorem registerUrl_lookup_self (lookup : String → Option (Option String))
    (st : CitState) (url : String)
    (hlook : lookupCitation st.citations url = none) :
    lookupCitation (registerUrl lookup st url).citations url =
      some ⟨st.next_citation_number, resolveTitle lookup url, url⟩ :=
  lookupCitation_append_new st.citations url _ hlook

theorem processCitations_spec
    (lookup : String → Option (Option String)) :
    ∀ (chunks : List Chunk) (st : CitState), citWF st →
      citWF (processCitations lookup st chunks).2
      ∧ (∀ url c, lookupCitation st.citations url = some c →
          lookupCitation ((processCitations lookup st chunks).2).citations url
            = some c)
      ∧ (processCitations lookup st chunks).1
          = chunks.map
              (renderWith ((processCitations lookup st chunks).2).citations)
  | [], st, hwf => ⟨hwf, fun _ _ h => h, rfl⟩
  | Chunk.text str :: rest, st, hwf => by
    obtain ⟨hwf', hpres, hout⟩ := processCitations_spec lookup rest st hwf
    have heq : processCitations lookup st (Chunk.text str :: rest) =
        (Chunk.text str :: (processCitations lookup st rest).1,
         (processCitations lookup st rest).2) := rfl
    rw [heq]
    refine ⟨hwf', hpres, ?_⟩
    simp only [List.map_cons, renderWith, hout]
  | Chunk.ref url :: rest, st, hwf => by
    cases hlook : lookupCitation st.citations url with
    | some c =>
      obtain ⟨hwf', hpres, hout⟩ := processCitations_spec lookup rest st hwf
      have hkeep := hpres url c hlook
      have heq : processCitations lookup st (Chunk.ref url :: rest) =
          (Chunk.text (citationText c.number url) ::
            (processCitations lookup st rest).1,
           (processCitations lookup st rest).2) := by
        simp only [processCitations, hlook]
      rw [heq]
      refine ⟨hwf', hpres, ?_⟩
      simp only [List.map_cons, renderWith, hkeep, hout]
    | none =>
      have hwf1 := citWF_registerUrl lookup st url hwf hlook
      obtain ⟨hwf', hpres, hout⟩ :=
        processCitations_spec lookup rest (registerUrl lookup st url) hwf1
      have hnew := registerUrl_lookup_self lookup st url hlook
      have hkeep := hpres url _ hnew
      have heq : processCitations lookup st (Chunk.ref url :: rest) =
          (Chunk.text (citationText st.next_citation_number url) ::
            (processCitations lookup (registerUrl lookup st url) rest).1,
           (processCitations lookup (registerUrl lookup st url) rest).2) := by
        simp only [processCitations, hlook]
      rw [heq]
      refine ⟨hwf', ?_, ?_⟩
      · intro u cu hu
        refine hpres u cu ?_
        simpa [registerUrl] using
          lookupCitation_append_left st.citations
            [(url, ⟨st.next_citation_number, resolveTitle lookup url, url⟩)]
            u cu hu
      · simp only [List.map_cons, renderWith, hkeep, hout]

/-- C1: citation rewriting is a stable, dense, first-occurrence numbering.
For every well-formed registry state and token list: (1) the processed state
is well formed again — numbers are exactly `1, 2, ...` in first-occurrence
order with no gaps and no url registered twice; (2) an existing assignment is
never changed by later rewriting (so the property holds across all rewrite
calls of one run, whose states are chained); (3) every marker in the output
is replaced by the numbered link of its url's final registered citation — in
particular two markers of the same url get the same number; (4) the
`a.com / b.com / a.com` scenario on a fresh registry yields numbers 1, 2, 1
and a registry of exactly two entries. -/
theorem c1_citation_rewriting
    (lookup : String → Option (Option String)) (st : CitState)
    (chunks : List Chunk) (hwf : citWF st) :
    citWF (processCitations lookup st chunks).2
    ∧ (∀ url c, lookupCitation st.citations url = some c →
        lookupCitation ((processCitations lookup st chunks).2).citations url
          = some c)
    ∧ (processCitations lookup st chunks).1
        = chunks.map
            (renderWith ((processCitations lookup st chunks).2).citations)
    ∧ processCitations (fun _ => none) {} c1Chunks =
        ([Chunk.text "See ", Chunk.text "[1](https://a.com)",
          Chunk.text " and ", Chunk.text "[2](https://b.com)",
          Chunk.text " and again ", Chunk.text "[1](https://a.com)"],
         ⟨[("https://a.com", ⟨1, "未知标题", "https://a.com"⟩),
           ("https://b.com", ⟨2, "未知标题", "https://b.com"⟩)], 3⟩) := by
  obtain ⟨h1, h2, h3⟩ := processCitations_spec lookup chunks st hwf
  exact ⟨h1, h2, h3, by decide⟩

/-- Witness for C1: the rewrite of the scenario text on the fresh registry
equals the rendering against the final registry. -/
theorem c1_witness :
    (processCitations (fun _ => none) {} c1Chunks).1
      = c1Chunks.map
          (renderWith
            ((processCitations (fun _ => none) {} c1Chunks).2).citations) := by
  have hwf : citWF {} := by
    refine ⟨rfl, ?_, List.nodup_nil⟩
    intro k p h
    simp at h
  exact (c1_citation_rewriting (fun _ => none) {} c1Chunks hwf).2.2.1

/-! ## Lemmas: dispatch scans and item lookup -/

theorem pickNext_split (tt : TaskType) :
    ∀ plan : List PlanItem, ∀ item : PlanItem,
      pickNext tt plan = some item →
      ∃ l1 l2, plan = l1 ++ item :: l2
        ∧ (∀ y ∈ l1, ¬(y.task_type = tt ∧ y.status ≠ Status.completed))
        ∧ item.task_type = tt ∧ item.status ≠ Status.completed
  | [], item, h => by simp [pickNext] at h
  | x :: rest, item, h => by
    by_cases hx : x.task_type = tt ∧ x.status ≠ Status.completed
    · have : pickNext tt (x :: rest) = some x := by
        simp only [pickNext, List.find?]
        rw [show (decide (x.task_type = tt ∧ x.status ≠ Status.completed))
          = true by simp [hx.1, hx.2]]
      rw [this] at h
      cases h
      exact ⟨[], rest, rfl, by simp, hx.1, hx.2⟩
    · have hstep : pickNext tt (x :: rest) = pickNext tt rest := by
        simp only [pickNext, List.find?]
        rw [show (decide (x.task_type = tt ∧ x.status ≠ Status.completed))
          = false by simpa using hx]
      rw [hstep] at h
      obtain ⟨l1, l2, heq, hne, hty, hst⟩ := pickNext_split tt rest item h
      refine ⟨x :: l1, l2, by rw [heq, List.cons_append], ?_, hty, hst⟩
      intro y hy
      rcases List.mem_cons.mp hy with rfl | hy2
      · exact hx
      · exact hne y hy2

theorem pickNext_build (tt : TaskType) :
    ∀ (l1 : List PlanItem) (item : PlanItem) (l2 : List PlanItem),
      (∀ y ∈ l1, ¬(y.task_type = tt ∧ y.status ≠ Status.completed)) →
      item.task_type = tt → item.status ≠ Status.completed →
      pickNext tt (l1 ++ item :: l2) = some item
  | [], item, l2, _, hty, hst => by
    simp only [List.nil_append, pickNext, List.find?]
    rw [show (decide (item.task_type = tt ∧ item.status ≠ Status.completed))
      = true by simp [hty, hst]]
  | x :: l1, item, l2, hne, hty, hst => by
    have hx := hne x (List.mem_cons_self x l1)
    have ih := pickNext_build tt l1 item l2
      (fun y hy => hne y (List.mem_cons_of_mem x hy)) hty hst
    simp only [List.cons_append, pickNext, List.find?]
    rw [show (decide (x.task_type = tt ∧ x.status ≠ Status.completed))
      = false by simpa using hx]
    exact ih

theorem find_plan_item_build :
    ∀ (l1 : List PlanItem) (item : PlanItem) (l2 : List PlanItem),
      (∀ y ∈ l1, y.item_id ≠ item.item_id) →
      find_plan_item (l1 ++ item :: l2) item.item_id = some (item, l1.length)
  | [], item, l2, _ => by
    simp [find_plan_item]
  | x :: l1, item, l2, hne => by
    have hx := hne x (List.mem_cons_self x l1)
    have ih := find_plan_item_build l1 item l2
      (fun y hy => hne y (List.mem_cons_of_mem x hy))
    show (if x.item_id = item.item_id then some (x, 0)
        else (find_plan_item (l1 ++ item :: l2) item.item_id).map
          (fun p => (p.1, p.2 + 1)))
      = some (item, (x :: l1).length)
    rw [if_neg hx, ih]
    rfl

theorem find_plan_item_sound :
    ∀ (plan : List PlanItem) (id : String) (item : PlanItem) (idx : Nat),
      find_plan_item plan id = some (item, idx) →
      plan.get? idx = some item ∧ item.item_id = id
  | [], id, item, idx, h => by simp [find_plan_item] at h
  | x :: rest, id, item, idx, h => by
    by_cases hx : x.item_id = id
    · simp only [find_plan_item, if_pos hx] at h
      cases h
      exact ⟨rfl, hx⟩
    · simp only [find_plan_item, if_neg hx] at h
      cases hfind : find_plan_item rest id with
      | none => rw [hfind] at h; cases h
      | some p =>
        rw [hfind] at h
        cases h
        obtain ⟨hget, hid⟩ := find_plan_item_sound rest id p.1 p.2 hfind
        exact ⟨hget, hid⟩

theorem set_append_length (l1 : List PlanItem) (x y : PlanItem)
    (l2 : List PlanItem) :
    (l1 ++ x :: l2).set l1.length y = l1 ++ y :: l2 := by
  induction l1 with
  | nil => rfl
  | cons a l1 ih => simp [List.set, ih]

theorem nodup_ids_head_ne (l1 : List PlanItem) (x : PlanItem)
    (l2 : List PlanItem)
    (hnd : (((l1 ++ x :: l2).map (fun it => it.item_id))).Nodup) :
    ∀ y ∈ l1, y.item_id ≠ x.item_id := by
  intro y hy
  rw [List.map_append] at hnd
  have hdisj := (List.nodup_append.mp hnd).2.2
  intro heq
  exact hdisj (a := y.item_id) (List.mem_map.mpr ⟨y, hy, rfl⟩)
    (by simp [heq])

/-! ## Claims C5, C7, C10: the research executor -/

/-- C5: research-task failure containment.  When the supervisor has
dispatched `item` and a search-step or indexing-step failure `e` occurs, the
executor returns normally with: the item marked `failed` with the error
message appended to its log and its `content` untouched, exactly one entry
`⟨execute_research_task, e⟩` in the run-level error list, and the next
dispatch scan selects the same (failed) item again — only `completed` items
are excluded, giving unbounded implicit retry. -/
theorem c5_research_failure_containment
    (s : AgentState) (item : PlanItem) (idx : Nat) (e : String)
    (rs : List SearchResult)
    (hnodup : (s.plan.map (fun it => it.item_id)).Nodup)
    (hcur : s.current_plan_item_id = some item.item_id)
    (hpick : pickNext TaskType.RESEARCH s.plan = some item)
    (hfind : find_plan_item s.plan item.item_id = some (item, idx)) :
    (execute_research_task (SearchOutcome.searchRaise e) s =
      { plan := some (s.plan.set idx
          { item with
            status := Status.failed
            execution_log := item.execution_log ++ [researchFailMsg item e] }),
        error_log := [⟨researchNode, e⟩] })
    ∧ (execute_research_task (SearchOutcome.indexRaise rs e) s =
      { plan := some (s.plan.set idx
          { item with
            status := Status.failed
            execution_log := (item.execution_log ++ [searchOkMsg rs]) ++
              [researchFailMsg item e] }),
        error_log := [⟨researchNode, e⟩] })
    ∧ pickNext TaskType.RESEARCH
        (applyUpdate s
          (execute_research_task (SearchOutcome.searchRaise e) s)).plan
      = some { item with
          status := Status.failed
          execution_log := item.execution_log ++ [researchFailMsg item e] } := by
  obtain ⟨l1, l2, heq, hne, hty, hst⟩ :=
    pickNext_split TaskType.RESEARCH s.plan item hpick
  have hids := nodup_ids_head_ne l1 item l2 (heq ▸ hnodup)
  have hfind' : find_plan_item s.plan item.item_id = some (item, l1.length) := by
    rw [heq]
    exact find_plan_item_build l1 item l2 hids
  have hidx : idx = l1.length := by
    rw [hfind] at hfind'
    exact congrArg Prod.snd (Option.some.inj hfind')
  have hexec1 : execute_research_task (SearchOutcome.searchRaise e) s =
      { plan := some (s.plan.set idx
          { item with
            status := Status.failed
            execution_log := item.execution_log ++ [researchFailMsg item e] }),
        error_log := [⟨researchNode, e⟩] } := by
    simp only [execute_research_task, hcur, hfind]
  have hexec2 : execute_research_task (SearchOutcome.indexRaise rs e) s =
      { plan := some (s.plan.set idx
          { item with
            status := Status.failed
            execution_log := (item.execution_log ++ [searchOkMsg rs]) ++
              [researchFailMsg item e] }),
        error_log := [⟨researchNode, e⟩] } := by
    simp only [execute_research_task, hcur, hfind]
  refine ⟨hexec1, hexec2, ?_⟩
  have hplan : (applyUpdate s
      (execute_research_task (SearchOutcome.searchRaise e) s)).plan =
      s.plan.set idx
        { item with
          status := Status.failed
          execution_log := item.execution_log ++ [researchFailMsg item e] } := by
    rw [hexec1]
    rfl
  rw [hplan, hidx, heq, set_append_length]
  exact pickNext_build TaskType.RESEARCH l1 _ l2 hne hty (by simp)

/-- Witness for C5: a one-item plan whose dispatched research task fails. -/
theorem c5_witness :
    execute_research_task (SearchOutcome.searchRaise "boom") c5S =
      { plan := some (c5S.plan.set 0
          { c5Item with
            status := Status.failed
            execution_log := c5Item.execution_log ++
              [researchFailMsg c5Item "boom"] }),
        error_log := [⟨researchNode, "boom"⟩] } :=
  (c5_research_failure_containment c5S c5Item 0 "boom" []
    (by decide) (by decide) (by decide) (by decide)).1

/-- C7: research content postcondition.  On a successful search the executor
stores, at the found index, the item marked `completed` whose content is the
`来源/标题/片段` blocks of the records with non-empty snippets joined by the
fixed delimiter, or the `没有找到相关信息。` sentinel when no record
qualifies — in particular when the search returned zero results. -/
theorem c7_research_content_postcondition
    (s : AgentState) (id : String) (item : PlanItem) (idx : Nat)
    (rs : List SearchResult)
    (hcur : s.current_plan_item_id = some id)
    (hfind : find_plan_item s.plan id = some (item, idx)) :
    (execute_research_task (SearchOutcome.ok rs) s =
      { plan := some (s.plan.set idx
          { item with
            status := Status.completed
            content := if (snippetBlocks rs).isEmpty then noInfoSentinel
                       else String.intercalate "\n\n---\n\n" (snippetBlocks rs)
            execution_log := (item.execution_log ++ [searchOkMsg rs]) ++
              ["研究任务完成，已存储原始网页片段。"] }) })
    ∧ (rs = [] →
        execute_research_task (SearchOutcome.ok rs) s =
          { plan := some (s.plan.set idx
              { item with
                status := Status.completed
                content := noInfoSentinel
                execution_log := (item.execution_log ++ [searchOkMsg rs]) ++
                  ["研究任务完成，已存储原始网页片段。"] }) }) := by
  have hexec : execute_research_task (SearchOutcome.ok rs) s =
      { plan := some (s.plan.set idx
          { item with
            status := Status.completed
            content := if (snippetBlocks rs).isEmpty then noInfoSentinel
                       else String.intercalate "\n\n---\n\n" (snippetBlocks rs)
            execution_log := (item.execution_log ++ [searchOkMsg rs]) ++
              ["研究任务完成，已存储原始网页片段。"] }) } := by
    simp only [execute_research_task, hcur, hfind]
  refine ⟨hexec, ?_⟩
  rintro rfl
  rw [hexec]
  rfl

/-- Witness for C7: a dispatched research task whose search returns zero
results ends completed with the sentinel content. -/
theorem c7_witness :
    execute_research_task (SearchOutcome.ok []) c7S =
      { plan := some (c7S.plan.set 0
          { c7Item with
            status := Status.completed
            content := noInfoSentinel
            execution_log := (c7Item.execution_log ++ [searchOkMsg []]) ++
              ["研究任务完成，已存储原始网页片段。"] }) } :=
  (c7_research_content_postcondition c7S "r7" c7Item 0 []
    (by decide) (by decide)).2 rfl

/-- C10: research-executor precondition-violation atomicity.  When
`current_plan_item_id` is absent or names no plan item the executor raises
nothing (the guards return normally, before the `try` block): the returned
update carries no `plan` key and exactly one run-level error entry, so the
merged state keeps the plan unchanged — no item is marked `in_progress` or
`failed`. -/
theorem c10_research_precondition_atomicity :
    (∀ (s : AgentState) (o : SearchOutcome),
        s.current_plan_item_id = none →
        execute_research_task o s =
          { error_log := [⟨researchNode, "current_plan_item_id 缺失"⟩] }
        ∧ (applyUpdate s (execute_research_task o s)).plan = s.plan
        ∧ (applyUpdate s (execute_research_task o s)).error_log =
            s.error_log ++ [⟨researchNode, "current_plan_item_id 缺失"⟩])
    ∧ (∀ (s : AgentState) (o : SearchOutcome) (id : String),
        s.current_plan_item_id = some id →
        find_plan_item s.plan id = none →
        execute_research_task o s =
          { error_log := [⟨researchNode, s!"未找到ID为 {id} 的任务。"⟩] }
        ∧ (applyUpdate s (execute_research_task o s)).plan = s.plan
        ∧ (applyUpdate s (execute_research_task o s)).error_log =
            s.error_log ++ [⟨researchNode, s!"未找到ID为 {id} 的任务。"⟩]) := by
  constructor
  · intro s o hcur
    have hexec : execute_research_task o s =
        { error_log := [⟨researchNode, "current_plan_item_id 缺失"⟩] } := by
      simp only [execute_research_task, hcur]
    refine ⟨hexec, ?_, ?_⟩ <;> rw [hexec] <;> rfl
  · intro s o id hcur hfind
    have hexec : execute_research_task o s =
        { error_log := [⟨researchNode, s!"未找到ID为 {id} 的任务。"⟩] } := by
      simp only [execute_research_task, hcur, hfind]
    refine ⟨hexec, ?_, ?_⟩ <;> rw [hexec] <;> rfl

/-- Witness for C10: a current id naming no plan item yields only the error
entry and leaves the plan untouched. -/
theorem c10_witness :
    execute_research_task (SearchOutcome.searchRaise "x") c10S =
      { error_log := [⟨researchNode, "未找到ID为 nope 的任务。"⟩] } :=
  (c10_research_precondition_atomicity.2 c10S
    (SearchOutcome.searchRaise "x") "nope" (by decide) (by decide)).1

/-! ## Claim C6: writing-task failures are not contained -/

/-- C6: writing-task failures are not contained.  (1) A missing
`current_plan_item_id` and (2) an id naming no plan item raise a
`ValueError` (modelled `Except.error`) out of the executor; (3) an executor
error aborts the writing dispatch loop with the same message; (4) a writing
loop error makes the whole graph invocation raise; (5) the top-level surface
maps a raised fault to a result object with `success = false`, the fault
message, and empty report and sources. -/
theorem c6_writing_failures_propagate :
    (∀ (wo : AgentInput → Except String (List Chunk))
       (lookup : String → Option (Option String)) (s : AgentState),
        s.current_plan_item_id = none →
        execute_writing_task wo lookup s =
          Except.error "execute_writing_task: current_plan_item_id 缺失。")
    ∧ (∀ (wo : AgentInput → Except String (List Chunk))
         (lookup : String → Option (Option String)) (s : AgentState)
         (id : String),
        s.current_plan_item_id = some id →
        find_plan_item s.plan id = none →
        execute_writing_task wo lookup s =
          Except.error s!"execute_writing_task: 未找到ID为 {id} 的任务。")
    ∧ (∀ (wo : AgentInput → Except String (List Chunk))
         (lookup : String → Option (Option String)) (fuel : Nat)
         (s : AgentState) (item : PlanItem) (e : String),
        pickNext TaskType.WRITING s.plan = some item →
        execute_writing_task wo lookup
          (applyUpdate s (writing_supervisor s)) = Except.error e →
        writingLoop wo lookup (fuel + 1) s = Except.error e)
    ∧ (∀ (fuelR fuelW : Nat) (ro : Nat → SearchOutcome)
         (so : String → String → String) (oo : String → String)
         (wo : AgentInput → Except String (List Chunk))
         (lookup : String → Option (Option String)) (s0 s1 : AgentState)
         (trR : List Event) (e : String),
        researchLoop ro fuelR 0 s0 = (s1, trR, true) →
        writingLoop wo lookup fuelW
          (applyUpdate (applyUpdate s1 (call_plan_summarizer so s1))
            (generate_overall_summary oo
              (applyUpdate s1 (call_plan_summarizer so s1)))) =
          Except.error e →
        runGraph fuelR fuelW ro so oo wo lookup s0 = RunOutcome.raised e)
    ∧ (∀ e : String,
        search_and_generate_report (RunOutcome.raised e) =
          some { success := false, error := some e, report := "",
                 sources := [], outline := some "", plan := [],
                 errors := [⟨"main", e⟩] }) := by
  refine ⟨?_, ?_, ?_, ?_, fun e => rfl⟩
  · intro wo lookup s hcur
    simp only [execute_writing_task, hcur]
  · intro wo lookup s id hcur hfind
    simp only [execute_writing_task, hcur, hfind]
  · intro wo lookup fuel s item e hpick hexec
    simp only [writingLoop, hpick, hexec]
  · intro fuelR fuelW ro so oo wo lookup s0 s1 trR e hR hW
    simp only [runGraph, hR, hW]
    rfl

/-- Witness for C6: the writing executor on a state with no current item
raises the missing-id fault. -/
theorem c6_witness :
    execute_writing_task (fun _ => Except.ok []) (fun _ => none) c6S =
      Except.error "execute_writing_task: current_plan_item_id 缺失。" :=
  c6_writing_failures_propagate.1 (fun _ => Except.ok [])
    (fun _ => none) c6S (by decide)

/-! ## Lemmas: generic list facts for the dispatch ordering claim -/

theorem get?_some_mem {α : Type} {l : List α} {i : Nat} {a : α}
    (h : l.get? i = some a) : a ∈ l := by
  have := List.get?_eq_some.mp h
  exact this.2 ▸ List.get_mem l i this.1

theorem nodup_map_get_inj {α β : Type} [DecidableEq β] (f : α → β) :
    ∀ (l : List α) (i j : Nat) (a b : α),
      (l.map f).Nodup → l.get? i = some a → l.get? j = some b →
      f a = f b → i = j
  | [], i, j, a, b, _, ha, _, _ => by simp at ha
  | x :: rest, 0, 0, a, b, _, _, _, _ => rfl
  | x :: rest, 0, j + 1, a, b, hnd, ha, hb, hf => by
    exfalso
    cases ha
    have hmem : b ∈ rest := get?_some_mem (show rest.get? j = some b from hb)
    have hnd' : (∀ y ∈ rest, ¬f y = f x) ∧ (rest.map f).Nodup := by
      simpa using hnd
    exact hnd'.1 b hmem hf.symm
  | x :: rest, i + 1, 0, a, b, hnd, ha, hb, hf => by
    exfalso
    cases hb
    have hmem : a ∈ rest := get?_some_mem (show rest.get? i = some a from ha)
    have hnd' : (∀ y ∈ rest, ¬f y = f x) ∧ (rest.map f).Nodup := by
      simpa using hnd
    exact hnd'.1 a hmem hf
  | x :: rest, i + 1, j + 1, a, b, hnd, ha, hb, hf => by
    have hnd' : (∀ y ∈ rest, ¬f y = f x) ∧ (rest.map f).Nodup := by
      simpa using hnd
    have := nodup_map_get_inj f rest i j a b hnd'.2
      (show rest.get? i = some a from ha)
      (show rest.get? j = some b from hb) hf
    omega

theorem mem_get?_some {α : Type} {l : List α} {a : α} (h : a ∈ l) :
    ∃ i, l.get? i = some a := by
  obtain ⟨n, hn⟩ := List.get_of_mem h
  exact ⟨n.1, by rw [List.get?_eq_get n.2, hn]⟩

theorem map_set_eq {α β : Type} (f : α → β) :
    ∀ (l : List α) (n : Nat) (x a : α),
      l.get? n = some a → f x = f a → (l.set n x).map f = l.map f
  | [], n, x, a, h, _ => by simp at h
  | y :: rest, 0, x, a, h, hf => by
    cases h
    simp [List.set, hf]
  | y :: rest, n + 1, x, a, h, hf => by
    simp only [List.set, List.map_cons]
    rw [map_set_eq f rest n x a h hf]

theorem map_get?_component {α β : Type} (f : α → β) (l l' : List α)
    (h : l'.map f = l.map f) (i : Nat) :
    (l'.get? i).map f = (l.get? i).map f := by
  have := congrArg (fun t => t.get? i) h
  simpa [List.get?_map] using this

theorem eq_nil_no_cons_decomp {α : Type} (t1 : List α) (x : α) (t2 : List α)
    (h : ([] : List α) = t1 ++ x :: t2) : False := by
  cases t1 <;> simp at h

theorem wellPaired_append :
    ∀ (a b : List Event), wellPaired a = true → wellPaired b = true →
      wellPaired (a ++ b) = true
  | [], b, _, hb => hb
  | Event.begin i :: Event.resolve j st :: rest, b, ha, hb => by
    simp only [wellPaired, Bool.and_eq_true] at ha
    simp only [List.cons_append, wellPaired, Bool.and_eq_true]
    exact ⟨ha.1, wellPaired_append rest b ha.2 hb⟩
  | [Event.begin i], b, ha, _ => by simp [wellPaired] at ha
  | Event.resolve i st :: rest, b, ha, _ => by simp [wellPaired] at ha
  | Event.begin i :: Event.begin j :: rest, b, ha, _ => by
    simp [wellPaired] at ha

theorem pickNext_none (tt : TaskType) (plan : List PlanItem)
    (h : pickNext tt plan = none) :
    ∀ it ∈ plan, it.task_type = tt → it.status = Status.completed := by
  intro it hmem hty
  have := List.find?_eq_none.mp h it hmem
  simp only [decide_eq_true_eq] at this
  by_contra hst
  exact this (by simp [hty, hst])

theorem statusOf_build (l1 : List PlanItem) (x : PlanItem)
    (l2 : List PlanItem) (hids : ∀ y ∈ l1, y.item_id ≠ x.item_id) :
    statusOf (l1 ++ x :: l2) x.item_id = x.status := by
  simp [statusOf, find_plan_item_build l1 x l2 hids]

/-! ## Lemmas: the research dispatch loop -/

theorem research_supervisor_state (s : AgentState) (item : PlanItem)
    (hpick : pickNext TaskType.RESEARCH s.plan = some item) :
    (applyUpdate s (research_supervisor s)).current_plan_item_id =
        some item.item_id
    ∧ (applyUpdate s (research_supervisor s)).plan = s.plan := by
  constructor
  · simp [applyUpdate, research_supervisor, hpick]
  · rfl

theorem research_applied_plan (o : SearchOutcome) (s : AgentState)
    (item : PlanItem) (idx : Nat)
    (hcur : s.current_plan_item_id = some item.item_id)
    (hfind : find_plan_item s.plan item.item_id = some (item, idx)) :
    ∃ item2 : PlanItem,
      (applyUpdate s (execute_research_task o s)).plan = s.plan.set idx item2
      ∧ item2.item_id = item.item_id
      ∧ item2.task_type = item.task_type
      ∧ (item2.status = Status.completed ∨ item2.status = Status.failed) := by
  cases o with
  | ok results =>
    refine ⟨{ item with
      status := Status.completed
      content := if (snippetBlocks results).isEmpty then noInfoSentinel
                 else String.intercalate "\n\n---\n\n" (snippetBlocks results)
      execution_log := (item.execution_log ++ [searchOkMsg results]) ++
        ["研究任务完成，已存储原始网页片段。"] }, ?_, rfl, rfl, Or.inl rfl⟩
    have hexec : execute_research_task (SearchOutcome.ok results) s =
        { plan := some (s.plan.set idx
            { item with
              status := Status.completed
              content := if (snippetBlocks results).isEmpty then noInfoSentinel
                         else String.intercalate "\n\n---\n\n"
                           (snippetBlocks results)
              execution_log := (item.execution_log ++ [searchOkMsg results]) ++
                ["研究任务完成，已存储原始网页片段。"] }) } := by
      simp only [execute_research_task, hcur, hfind]
    rw [hexec]
    rfl
  | searchRaise e =>
    refine ⟨{ item with
      status := Status.failed
      execution_log := item.execution_log ++ [researchFailMsg item e] },
      ?_, rfl, rfl, Or.inr rfl⟩
    have hexec : execute_research_task (SearchOutcome.searchRaise e) s =
        { plan := some (s.plan.set idx
            { item with
              status := Status.failed
              execution_log := item.execution_log ++ [researchFailMsg item e] })
          error_log := [⟨researchNode, e⟩] } := by
      simp only [execute_research_task, hcur, hfind]
    rw [hexec]
    rfl
  | indexRaise results e =>
    refine ⟨{ item with
      status := Status.failed
      execution_log := (item.execution_log ++ [searchOkMsg results]) ++
        [researchFailMsg item e] }, ?_, rfl, rfl, Or.inr rfl⟩
    have hexec : execute_research_task (SearchOutcome.indexRaise results e) s =
        { plan := some (s.plan.set idx
            { item with
              status := Status.failed
              execution_log := (item.execution_log ++ [searchOkMsg results]) ++
                [researchFailMsg item e] })
          error_log := [⟨researchNode, e⟩] } := by
      simp only [execute_research_task, hcur, hfind]
    rw [hexec]
    rfl

theorem researchLoop_succ_none (ro : Nat → SearchOutcome) (fuel k : Nat)
    (s : AgentState)
    (hpick : pickNext TaskType.RESEARCH s.plan = none) :
    researchLoop ro (fuel + 1) k s =
      (applyUpdate s (research_supervisor s), [], true) := by
  simp only [researchLoop, hpick]

theorem get?_append_cons_length {α : Type} :
    ∀ (l1 : List α) (x : α) (l2 : List α),
      (l1 ++ x :: l2).get? l1.length = some x
  | [], _, _ => rfl
  | _ :: l1, x, l2 => get?_append_cons_length l1 x l2

theorem researchLoop_succ_some (ro : Nat → SearchOutcome) (fuel k : Nat)
    (s s2 s3 : AgentState) (item : PlanItem) (tr : List Event) (fl : Bool)
    (hpick : pickNext TaskType.RESEARCH s.plan = some item)
    (hs2 : s2 = applyUpdate (applyUpdate s (research_supervisor s))
        (execute_research_task (ro k) (applyUpdate s (research_supervisor s))))
    (hrec : researchLoop ro fuel (k + 1) s2 = (s3, tr, fl)) :
    researchLoop ro (fuel + 1) k s =
      (s3, Event.begin item.item_id ::
        Event.resolve item.item_id (statusOf s2.plan item.item_id) :: tr,
        fl) := by
  subst hs2
  simp only [researchLoop, hpick, hrec]

/-- The invariants of the research dispatch loop, by induction on the fuel:
skeleton preservation, frame on non-research and completed items, one task in
flight, research-only events, exit only with every research item completed,
completion evidence in the trace, and plan-order dispatch. -/
theorem researchLoop_spec (ro : Nat → SearchOutcome) :
    ∀ (fuel k : Nat) (s s' : AgentState) (tr : List Event) (fl : Bool),
      (s.plan.map (fun it => it.item_id)).Nodup →
      researchLoop ro fuel k s = (s', tr, fl) →
      (s'.plan.map (fun it => (it.item_id, it.task_type))
        = s.plan.map (fun it => (it.item_id, it.task_type)))
      ∧ (∀ i it, s.plan.get? i = some it →
          (it.task_type ≠ TaskType.RESEARCH ∨ it.status = Status.completed) →
          s'.plan.get? i = some it)
      ∧ wellPaired tr = true
      ∧ (∀ e ∈ tr, ∃ it ∈ s.plan, eventId e = it.item_id
            ∧ it.task_type = TaskType.RESEARCH)
      ∧ (fl = true → ∀ it ∈ s'.plan, it.task_type = TaskType.RESEARCH →
            it.status = Status.completed)
      ∧ (∀ i it', s'.plan.get? i = some it' → it'.status = Status.completed →
          (∃ it, s.plan.get? i = some it ∧ it.status = Status.completed)
          ∨ Event.resolve it'.item_id Status.completed ∈ tr)
      ∧ (∀ t1 b t2, tr = t1 ++ Event.begin b :: t2 →
          ∀ i j itI itJ, s.plan.get? i = some itI → s.plan.get? j = some itJ →
            itJ.item_id = b → i < j →
            itI.task_type = TaskType.RESEARCH →
            itJ.task_type = TaskType.RESEARCH →
            itI.status = Status.completed
            ∨ Event.resolve itI.item_id Status.completed ∈ t1)
  | 0, k, s, s', tr, fl, _, hrun => by
    have h0 : researchLoop ro 0 k s = (s, [], false) := rfl
    rw [h0] at hrun
    have hs : s = s' := congrArg Prod.fst hrun
    have htr : ([] : List Event) = tr := congrArg (fun p => p.2.1) hrun
    have hfl : false = fl := congrArg (fun p => p.2.2) hrun
    subst hs
    subst htr
    subst hfl
    refine ⟨rfl, fun i it h _ => h, rfl, by simp, by simp, ?_, ?_⟩
    · intro i it' h hc
      exact Or.inl ⟨it', h, hc⟩
    · intro t1 b t2 hdec
      exact absurd hdec.symm (by intro h; exact eq_nil_no_cons_decomp t1 _ t2 h.symm)
  | fuel + 1, k, s, s', tr, fl, hnodup, hrun => by
    cases hpick : pickNext TaskType.RESEARCH s.plan with
    | none =>
      rw [researchLoop_succ_none ro fuel k s hpick] at hrun
      have hs : applyUpdate s (research_supervisor s) = s' :=
        congrArg Prod.fst hrun
      have htr : ([] : List Event) = tr := congrArg (fun p => p.2.1) hrun
      have hfl : true = fl := congrArg (fun p => p.2.2) hrun
      subst htr
      subst hfl
      have hplan : s'.plan = s.plan := by rw [← hs]; rfl
      refine ⟨by rw [hplan], ?_, rfl, by simp, ?_, ?_, ?_⟩
      · intro i it h _
        rw [hplan]
        exact h
      · intro _ it hmem hty
        rw [hplan] at hmem
        exact pickNext_none TaskType.RESEARCH s.plan hpick it hmem hty
      · intro i it' h hc
        rw [hplan] at h
        exact Or.inl ⟨it', h, hc⟩
      · intro t1 b t2 hdec
        exact absurd hdec.symm
          (by intro h; exact eq_nil_no_cons_decomp t1 _ t2 h.symm)
    | some item =>
      obtain ⟨l1, l2, heq, hne, hty, hst⟩ :=
        pickNext_split TaskType.RESEARCH s.plan item hpick
      have hids := nodup_ids_head_ne l1 item l2 (heq ▸ hnodup)
      obtain ⟨hcur1, hplan1⟩ := research_supervisor_state s item hpick
      have hfind : find_plan_item
          (applyUpdate s (research_supervisor s)).plan item.item_id =
          some (item, l1.length) := by
        rw [hplan1, heq]
        exact find_plan_item_build l1 item l2 hids
      obtain ⟨item2, hset, hid2, hty2, hst2⟩ :=
        research_applied_plan (ro k) (applyUpdate s (research_supervisor s))
          item l1.length hcur1 hfind
      have hset' : (applyUpdate (applyUpdate s (research_supervisor s))
          (execute_research_task (ro k)
            (applyUpdate s (research_supervisor s)))).plan =
          s.plan.set l1.length item2 := by
        rw [hset, hplan1]
      have hget_at : s.plan.get? l1.length = some item := by
        rw [heq]
        exact get?_append_cons_length l1 item l2
      have heq2 : (applyUpdate (applyUpdate s (research_supervisor s))
          (execute_research_task (ro k)
            (applyUpdate s (research_supervisor s)))).plan =
          l1 ++ item2 :: l2 := by
        rw [hset', heq, set_append_length]
      have hmapids : ((s.plan.set l1.length item2).map
          (fun it => it.item_id)) = s.plan.map (fun it => it.item_id) :=
        map_set_eq _ s.plan l1.length item2 item hget_at hid2
      have hnodup2 : (((applyUpdate (applyUpdate s (research_supervisor s))
          (execute_research_task (ro k)
            (applyUpdate s (research_supervisor s)))).plan).map
          (fun it => it.item_id)).Nodup := by
        rw [hset', hmapids]
        exact hnodup
      have hstat : statusOf (applyUpdate (applyUpdate s (research_supervisor s))
          (execute_research_task (ro k)
            (applyUpdate s (research_supervisor s)))).plan item.item_id =
          item2.status := by
        rw [heq2, ← hid2]
        exact statusOf_build l1 item2 l2 (fun y hy => hid2 ▸ hids y hy)
      rcases hrec : researchLoop ro fuel (k + 1)
          (applyUpdate (applyUpdate s (research_supervisor s))
            (execute_research_task (ro k)
              (applyUpdate s (research_supervisor s)))) with ⟨s3, tr', fl'⟩
      obtain ⟨ihskel, ihuntouched, ihwp, ihev, ihfl, ihr7, ihr8⟩ :=
        researchLoop_spec ro fuel (k + 1) _ s3 tr' fl' hnodup2 hrec
      rw [researchLoop_succ_some ro fuel k s _ s3 item tr' fl' hpick rfl hrec]
        at hrun
      have hs3 : s3 = s' := congrArg Prod.fst hrun
      have h5 : Event.begin item.item_id :: Event.resolve item.item_id
          (statusOf (applyUpdate (applyUpdate s (research_supervisor s))
            (execute_research_task (ro k)
              (applyUpdate s (research_supervisor s)))).plan item.item_id) ::
          tr' = tr := congrArg (fun p => p.2.1) hrun
      have htr : Event.begin item.item_id ::
          Event.resolve item.item_id item2.status :: tr' = tr := by
        rw [hstat] at h5
        exact h5
      have hfl2 : fl' = fl := congrArg (fun p => p.2.2) hrun
      subst hs3
      subst hfl2
      have hs2get : ∀ i : Nat, i ≠ l1.length →
          (applyUpdate (applyUpdate s (research_supervisor s))
            (execute_research_task (ro k)
              (applyUpdate s (research_supervisor s)))).plan.get? i =
            s.plan.get? i := by
        intro i hi
        rw [hset']
        exact List.get?_set_ne _ _ (fun h => hi h.symm)
      have hs2get_at : (applyUpdate (applyUpdate s (research_supervisor s))
          (execute_research_task (ro k)
            (applyUpdate s (research_supervisor s)))).plan.get? l1.length =
          some item2 := by
        rw [heq2]
        exact get?_append_cons_length l1 item2 l2
      have hmem_item : item ∈ s.plan := by
        rw [heq]
        exact List.mem_append.mpr (Or.inr (List.mem_cons_self item l2))
      refine ⟨?_, ?_, ?_, ?_, ?_, ?_, ?_⟩
      · rw [ihskel, hset']
        exact map_set_eq _ s.plan l1.length item2 item hget_at
          (by simp [hid2, hty2])
      · intro i it hget hcond
        have hi : i ≠ l1.length := by
          intro hcontra
          subst hcontra
          rw [hget_at] at hget
          cases hget
          rcases hcond with hc | hc
          · exact hc hty
          · exact hst hc
        exact ihuntouched i it (by rw [hs2get i hi]; exact hget) hcond
      · rw [← htr]
        simp only [wellPaired, Bool.and_eq_true]
        exact ⟨by simp, ihwp⟩
      · intro e he
        rw [← htr] at he
        rcases List.mem_cons.mp he with rfl | he2
        · exact ⟨item, hmem_item, rfl, hty⟩
        rcases List.mem_cons.mp he2 with rfl | he3
        · exact ⟨item, hmem_item, rfl, hty⟩
        · obtain ⟨it2m, hmem2, hide, htype⟩ := ihev e he3
          rw [heq2] at hmem2
          rcases List.mem_append.mp hmem2 with hm | hm
          · exact ⟨it2m, by rw [heq]; exact List.mem_append.mpr (Or.inl hm),
              hide, htype⟩
          rcases List.mem_cons.mp hm with rfl | hm2
          · exact ⟨item, hmem_item, by rw [hide, hid2], by rw [← hty2, htype]⟩
          · exact ⟨it2m, by
              rw [heq]
              exact List.mem_append.mpr (Or.inr (List.mem_cons_of_mem _ hm2)),
              hide, htype⟩
      · exact ihfl
      · intro i it' hget' hcompl
        rcases ihr7 i it' hget' hcompl with ⟨it2m, hg2, hc2⟩ | hres
        · by_cases hi : i = l1.length
          · subst hi
            rw [hs2get_at] at hg2
            cases hg2
            right
            rw [← htr]
            have hcomp := map_get?_component
              (fun it : PlanItem => (it.item_id, it.task_type))
              ((applyUpdate (applyUpdate s (research_supervisor s))
                (execute_research_task (ro k)
                  (applyUpdate s (research_supervisor s)))).plan)
              s3.plan ihskel l1.length
            rw [hget', hs2get_at] at hcomp
            have hpair : (it'.item_id, it'.task_type) =
                (item2.item_id, item2.task_type) := by simpa using hcomp
            have hids' : it'.item_id = item.item_id := by
              have := congrArg Prod.fst hpair
              simpa [hid2] using this
            rw [hids', ← hc2]
            exact List.mem_cons_of_mem _ (List.mem_cons_self _ _)
          · left
            exact ⟨it2m, by rw [← hs2get i hi]; exact hg2, hc2⟩
        · right
          rw [← htr]
          exact List.mem_cons_of_mem _ (List.mem_cons_of_mem _ hres)
      · intro t1 b t2 hdec i j itI itJ hgi hgj hidb hij htyI htyJ
        rw [← htr] at hdec
        cases t1 with
        | nil =>
          simp only [List.nil_append] at hdec
          injection hdec with h1 h2
          injection h1 with hb
          have hj : j = l1.length :=
            nodup_map_get_inj (fun it => it.item_id) s.plan j l1.length itJ
              item hnodup hgj hget_at (hidb.trans hb.symm)
          subst hj
          rw [hget_at] at hgj
          cases hgj
          left
          have hgi' : l1.get? i = some itI := by
            rw [heq] at hgi
            rwa [List.get?_append hij] at hgi
          have hmemI : itI ∈ l1 := get?_some_mem hgi'
          have hnotel := hne itI hmemI
          by_contra hcon
          exact hnotel ⟨htyI, hcon⟩
        | cons e0 t1' =>
          injection hdec with h1 h2
          cases t1' with
          | nil =>
            injection h2 with h3 h4
            exact absurd h3 (by simp)
          | cons e1 t1'' =>
            injection h2 with h3 h4
            by_cases hj : j = l1.length
            · subst hj
              rw [hget_at] at hgj
              cases hgj
              by_cases hi : i = l1.length
              · exact absurd hij (by omega)
              · have hgi2 : (applyUpdate (applyUpdate s
                    (research_supervisor s)) (execute_research_task (ro k)
                      (applyUpdate s (research_supervisor s)))).plan.get? i =
                    some itI := by
                  rw [hs2get i hi]
                  exact hgi
                rcases ihr8 t1'' b t2 h4 i l1.length itI item2 hgi2 hs2get_at
                    (hid2.trans hidb) hij htyI (hty2.trans htyJ) with
                    hcompl2 | hmem2
                · exact Or.inl hcompl2
                · exact Or.inr (List.mem_cons_of_mem _
                    (List.mem_cons_of_mem _ hmem2))
            · have hgj2 : (applyUpdate (applyUpdate s
                  (research_supervisor s)) (execute_research_task (ro k)
                    (applyUpdate s (research_supervisor s)))).plan.get? j =
                  some itJ := by
                rw [hs2get j hj]
                exact hgj
              by_cases hi : i = l1.length
              · subst hi
                rw [hget_at] at hgi
                cases hgi
                rcases ihr8 t1'' b t2 h4 l1.length j item2 itJ hs2get_at hgj2
                    hidb hij (hty2.trans htyI) htyJ with hcompl2 | hmem2
                · right
                  rw [← h3, ← hcompl2]
                  exact List.mem_cons_of_mem _ (List.mem_cons_self _ _)
                · exact Or.inr (List.mem_cons_of_mem _
                    (List.mem_cons_of_mem _ (hid2 ▸ hmem2)))
              · have hgi2 : (applyUpdate (applyUpdate s
                    (research_supervisor s)) (execute_research_task (ro k)
                      (applyUpdate s (research_supervisor s)))).plan.get? i =
                    some itI := by
                  rw [hs2get i hi]
                  exact hgi
                rcases ihr8 t1'' b t2 h4 i j itI itJ hgi2 hgj2 hidb hij htyI
                    htyJ with hcompl2 | hmem2
                · exact Or.inl hcompl2
                · exact Or.inr (List.mem_cons_of_mem _
                    (List.mem_cons_of_mem _ hmem2))

/-! ## Lemmas: the writing dispatch loop -/

theorem writing_supervisor_state (s : AgentState) (item : PlanItem)
    (hpick : pickNext TaskType.WRITING s.plan = some item) :
    (applyUpdate s (writing_supervisor s)).current_plan_item_id =
        some item.item_id
    ∧ (applyUpdate s (writing_supervisor s)).plan = s.plan := by
  constructor
  · simp [applyUpdate, writing_supervisor, hpick]
  · rfl

theorem writing_applied_plan (wo : AgentInput → Except String (List Chunk))
    (lookup : String → Option (Option String)) (s : AgentState)
    (item : PlanItem) (idx : Nat) (u : NodeUpdate)
    (hcur : s.current_plan_item_id = some item.item_id)
    (hfind : find_plan_item s.plan item.item_id = some (item, idx))
    (hok : execute_writing_task wo lookup s = Except.ok u) :
    ∃ item2 : PlanItem,
      (applyUpdate s u).plan = s.plan.set idx item2
      ∧ item2.item_id = item.item_id
      ∧ item2.task_type = item.task_type
      ∧ item2.status = Status.completed := by
  have hsound := find_plan_item_sound s.plan item.item_id item idx hfind
  cases hwo : wo (buildAgentInput s item item.item_id) with
  | error e =>
    have herr : execute_writing_task wo lookup s = Except.error e := by
      simp only [execute_writing_task, hcur, hfind, hwo]
    rw [herr] at hok
    cases hok
  | ok raw =>
    have hexec : execute_writing_task wo lookup s =
        Except.ok (process_citations_and_update_state lookup raw s.plan idx
          s.shared_context) := by
      simp only [execute_writing_task, hcur, hfind, hwo]
    rw [hexec] at hok
    have hu := Except.ok.inj hok
    refine ⟨{ item with
      content :=
        renderChunks (processCitations lookup s.shared_context raw).1
      status := Status.completed }, ?_, rfl, rfl, rfl⟩
    rw [← hu]
    have hplan' : (process_citations_and_update_state lookup raw s.plan idx
        s.shared_context).plan = some (s.plan.set idx { item with
          content :=
            renderChunks (processCitations lookup s.shared_context raw).1
          status := Status.completed }) := by
      simp only [process_citations_and_update_state, hsound.1]
    simp [applyUpdate, hplan']

theorem writingLoop_succ_none (wo : AgentInput → Except String (List Chunk))
    (lookup : String → Option (Option String)) (fuel : Nat) (s : AgentState)
    (hpick : pickNext TaskType.WRITING s.plan = none) :
    writingLoop wo lookup (fuel + 1) s =
      Except.ok (applyUpdate s (writing_supervisor s), [], true) := by
  simp only [writingLoop, hpick]

theorem writingLoop_succ_some_ok (wo : AgentInput → Except String (List Chunk))
    (lookup : String → Option (Option String)) (fuel : Nat)
    (s s3 : AgentState) (item : PlanItem) (u : NodeUpdate) (tr : List Event)
    (fl : Bool)
    (hpick : pickNext TaskType.WRITING s.plan = some item)
    (hexec : execute_writing_task wo lookup
      (applyUpdate s (writing_supervisor s)) = Except.ok u)
    (hrec : writingLoop wo lookup fuel
      (applyUpdate (applyUpdate s (writing_supervisor s)) u) =
        Except.ok (s3, tr, fl)) :
    writingLoop wo lookup (fuel + 1) s =
      Except.ok (s3, Event.begin item.item_id ::
        Event.resolve item.item_id
          (statusOf (applyUpdate (applyUpdate s (writing_supervisor s)) u).plan
            item.item_id) :: tr, fl) := by
  simp only [writingLoop, hpick, hexec, hrec]

/-- The invariants of the writing dispatch loop on a successful run, mirror
images of `researchLoop_spec`. -/
theorem writingLoop_spec (wo : AgentInput → Except String (List Chunk))
    (lookup : String → Option (Option String)) :
    ∀ (fuel : Nat) (s s' : AgentState) (tr : List Event) (fl : Bool),
      (s.plan.map (fun it => it.item_id)).Nodup →
      writingLoop wo lookup fuel s = Except.ok (s', tr, fl) →
      (s'.plan.map (fun it => (it.item_id, it.task_type))
        = s.plan.map (fun it => (it.item_id, it.task_type)))
      ∧ (∀ i it, s.plan.get? i = some it →
          (it.task_type ≠ TaskType.WRITING ∨ it.status = Status.completed) →
          s'.plan.get? i = some it)
      ∧ wellPaired tr = true
      ∧ (∀ e ∈ tr, ∃ it ∈ s.plan, eventId e = it.item_id
            ∧ it.task_type = TaskType.WRITING)
      ∧ (fl = true → ∀ it ∈ s'.plan, it.task_type = TaskType.WRITING →
            it.status = Status.completed)
      ∧ (∀ i it', s'.plan.get? i = some it' → it'.status = Status.completed →
          (∃ it, s.plan.get? i = some it ∧ it.status = Status.completed)
          ∨ Event.resolve it'.item_id Status.completed ∈ tr)
      ∧ (∀ t1 b t2, tr = t1 ++ Event.begin b :: t2 →
          ∀ i j itI itJ, s.plan.get? i = some itI → s.plan.get? j = some itJ →
            itJ.item_id = b → i < j →
            itI.task_type = TaskType.WRITING →
            itJ.task_type = TaskType.WRITING →
            itI.status = Status.completed
            ∨ Event.resolve itI.item_id Status.completed ∈ t1)
  | 0, s, s', tr, fl, _, hrun => by
    have h0 : writingLoop wo lookup 0 s = Except.ok (s, [], false) := rfl
    rw [h0] at hrun
    have hrun2 := Except.ok.inj hrun
    have hs : s = s' := congrArg Prod.fst hrun2
    have htr : ([] : List Event) = tr := congrArg (fun p => p.2.1) hrun2
    have hfl : false = fl := congrArg (fun p => p.2.2) hrun2
    subst hs
    subst htr
    subst hfl
    refine ⟨rfl, fun i it h _ => h, rfl, by simp, by simp, ?_, ?_⟩
    · intro i it' h hc
      exact Or.inl ⟨it', h, hc⟩
    · intro t1 b t2 hdec
      exact absurd hdec.symm
        (by intro h; exact eq_nil_no_cons_decomp t1 _ t2 h.symm)
  | fuel + 1, s, s', tr, fl, hnodup, hrun => by
    cases hpick : pickNext TaskType.WRITING s.plan with
    | none =>
      rw [writingLoop_succ_none wo lookup fuel s hpick] at hrun
      have hrun2 := Except.ok.inj hrun
      have hs : applyUpdate s (writing_supervisor s) = s' :=
        congrArg Prod.fst hrun2
      have htr : ([] : List Event) = tr := congrArg (fun p => p.2.1) hrun2
      have hfl : true = fl := congrArg (fun p => p.2.2) hrun2
      subst htr
      subst hfl
      have hplan : s'.plan = s.plan := by rw [← hs]; rfl
      refine ⟨by rw [hplan], ?_, rfl, by simp, ?_, ?_, ?_⟩
      · intro i it h _
        rw [hplan]
        exact h
      · intro _ it hmem hty
        rw [hplan] at hmem
        exact pickNext_none TaskType.WRITING s.plan hpick it hmem hty
      · intro i it' h hc
        rw [hplan] at h
        exact Or.inl ⟨it', h, hc⟩
      · intro t1 b t2 hdec
        exact absurd hdec.symm
          (by intro h; exact eq_nil_no_cons_decomp t1 _ t2 h.symm)
    | some item =>
      obtain ⟨l1, l2, heq, hne, hty, hst⟩ :=
        pickNext_split TaskType.WRITING s.plan item hpick
      have hids := nodup_ids_head_ne l1 item l2 (heq ▸ hnodup)
      obtain ⟨hcur1, hplan1⟩ := writing_supervisor_state s item hpick
      have hfind : find_plan_item
          (applyUpdate s (writing_supervisor s)).plan item.item_id =
          some (item, l1.length) := by
        rw [hplan1, heq]
        exact find_plan_item_build l1 item l2 hids
      cases hexec : execute_writing_task wo lookup
          (applyUpdate s (writing_supervisor s)) with
      | error e =>
        have : writingLoop wo lookup (fuel + 1) s = Except.error e := by
          simp only [writingLoop, hpick, hexec]
        rw [this] at hrun
        cases hrun
      | ok u =>
        obtain ⟨item2, hset, hid2, hty2, hst2⟩ :=
          writing_applied_plan wo lookup
            (applyUpdate s (writing_supervisor s)) item l1.length u
            hcur1 hfind hexec
        have hset' : (applyUpdate (applyUpdate s (writing_supervisor s))
            u).plan = s.plan.set l1.length item2 := by
          rw [hset, hplan1]
        have hget_at : s.plan.get? l1.length = some item := by
          rw [heq]
          exact get?_append_cons_length l1 item l2
        have heq2 : (applyUpdate (applyUpdate s (writing_supervisor s))
            u).plan = l1 ++ item2 :: l2 := by
          rw [hset', heq, set_append_length]
        have hmapids : ((s.plan.set l1.length item2).map
            (fun it => it.item_id)) = s.plan.map (fun it => it.item_id) :=
          map_set_eq _ s.plan l1.length item2 item hget_at hid2
        have hnodup2 : (((applyUpdate (applyUpdate s (writing_supervisor s))
            u).plan).map (fun it => it.item_id)).Nodup := by
          rw [hset', hmapids]
          exact hnodup
        have hstat : statusOf (applyUpdate (applyUpdate s
            (writing_supervisor s)) u).plan item.item_id = item2.status := by
          rw [heq2, ← hid2]
          exact statusOf_build l1 item2 l2 (fun y hy => hid2 ▸ hids y hy)
        cases hrec2 : writingLoop wo lookup fuel
            (applyUpdate (applyUpdate s (writing_supervisor s)) u) with
        | error e =>
          have : writingLoop wo lookup (fuel + 1) s = Except.error e := by
            simp only [writingLoop, hpick, hexec, hrec2]
          rw [this] at hrun
          cases hrun
        | ok res =>
          rcases hres : res with ⟨s3, tr', fl'⟩
          rw [hres] at hrec2
          obtain ⟨ihskel, ihuntouched, ihwp, ihev, ihfl, ihr7, ihr8⟩ :=
            writingLoop_spec wo lookup fuel _ s3 tr' fl' hnodup2 hrec2
          rw [writingLoop_succ_some_ok wo lookup fuel s s3 item u tr' fl'
            hpick hexec hrec2] at hrun
          have hrun2 := Except.ok.inj hrun
          have hs3 : s3 = s' := congrArg Prod.fst hrun2
          have h5 : Event.begin item.item_id :: Event.resolve item.item_id
              (statusOf (applyUpdate (applyUpdate s (writing_supervisor s))
                u).plan item.item_id) :: tr' = tr :=
            congrArg (fun p => p.2.1) hrun2
          have htr : Event.begin item.item_id ::
              Event.resolve item.item_id item2.status :: tr' = tr := by
            rw [hstat] at h5
            exact h5
          have hfl2 : fl' = fl := congrArg (fun p => p.2.2) hrun2
          subst hs3
          subst hfl2
          have hs2get : ∀ i : Nat, i ≠ l1.length →
              (applyUpdate (applyUpdate s (writing_supervisor s))
                u).plan.get? i = s.plan.get? i := by
            intro i hi
            rw [hset']
            exact List.get?_set_ne _ _ (fun h => hi h.symm)
          have hs2get_at : (applyUpdate (applyUpdate s (writing_supervisor s))
              u).plan.get? l1.length = some item2 := by
            rw [heq2]
            exact get?_append_cons_length l1 item2 l2
          have hmem_item : item ∈ s.plan := by
            rw [heq]
            exact List.mem_append.mpr (Or.inr (List.mem_cons_self item l2))
          refine ⟨?_, ?_, ?_, ?_, ?_, ?_, ?_⟩
          · rw [ihskel, hset']
            exact map_set_eq _ s.plan l1.length item2 item hget_at
              (by simp [hid2, hty2])
          · intro i it hget hcond
            have hi : i ≠ l1.length := by
              intro hcontra
              subst hcontra
              rw [hget_at] at hget
              cases hget
              rcases hcond with hc | hc
              · exact hc hty
              · exact hst hc
            exact ihuntouched i it (by rw [hs2get i hi]; exact hget) hcond
          · rw [← htr]
            simp only [wellPaired, Bool.and_eq_true]
            exact ⟨by simp, ihwp⟩
          · intro e he
            rw [← htr] at he
            rcases List.mem_cons.mp he with rfl | he2
            · exact ⟨item, hmem_item, rfl, hty⟩
            rcases List.mem_cons.mp he2 with rfl | he3
            · exact ⟨item, hmem_item, rfl, hty⟩
            · obtain ⟨it2m, hmem2, hide, htype⟩ := ihev e he3
              rw [heq2] at hmem2
              rcases List.mem_append.mp hmem2 with hm | hm
              · exact ⟨it2m, by rw [heq]; exact List.mem_append.mpr (Or.inl hm),
                  hide, htype⟩
              rcases List.mem_cons.mp hm with rfl | hm2
              · exact ⟨item, hmem_item, by rw [hide, hid2],
                  by rw [← hty2, htype]⟩
              · exact ⟨it2m, by
                  rw [heq]
                  exact List.mem_append.mpr
                    (Or.inr (List.mem_cons_of_mem _ hm2)),
                  hide, htype⟩
          · exact ihfl
          · intro i it' hget' hcompl
            rcases ihr7 i it' hget' hcompl with ⟨it2m, hg2, hc2⟩ | hres
            · by_cases hi : i = l1.length
              · subst hi
                rw [hs2get_at] at hg2
                cases hg2
                right
                rw [← htr]
                have hcomp := map_get?_component
                  (fun it : PlanItem => (it.item_id, it.task_type))
                  ((applyUpdate (applyUpdate s (writing_supervisor s))
                    u).plan) s3.plan ihskel l1.length
                rw [hget', hs2get_at] at hcomp
                have hpair : (it'.item_id, it'.task_type) =
                    (item2.item_id, item2.task_type) := by simpa using hcomp
                have hids' : it'.item_id = item.item_id := by
                  have := congrArg Prod.fst hpair
                  simpa [hid2] using this
                rw [hids', ← hc2]
                exact List.mem_cons_of_mem _ (List.mem_cons_self _ _)
              · left
                exact ⟨it2m, by rw [← hs2get i hi]; exact hg2, hc2⟩
            · right
              rw [← htr]
              exact List.mem_cons_of_mem _ (List.mem_cons_of_mem _ hres)
          · intro t1 b t2 hdec i j itI itJ hgi hgj hidb hij htyI htyJ
            rw [← htr] at hdec
            cases t1 with
            | nil =>
              injection hdec with h1 h2
              injection h1 with hb
              have hj : j = l1.length :=
                nodup_map_get_inj (fun it => it.item_id) s.plan j l1.length
                  itJ item hnodup hgj hget_at (hidb.trans hb.symm)
              subst hj
              rw [hget_at] at hgj
              cases hgj
              left
              have hgi' : l1.get? i = some itI := by
                rw [heq] at hgi
                rwa [List.get?_append hij] at hgi
              have hmemI : itI ∈ l1 := get?_some_mem hgi'
              have hnotel := hne itI hmemI
              by_contra hcon
              exact hnotel ⟨htyI, hcon⟩
            | cons e0 t1' =>
              injection hdec with h1 h2
              cases t1' with
              | nil =>
                injection h2 with h3 h4
                exact absurd h3 (by simp)
              | cons e1 t1'' =>
                injection h2 with h3 h4
                by_cases hj : j = l1.length
                · subst hj
                  rw [hget_at] at hgj
                  cases hgj
                  by_cases hi : i = l1.length
                  · exact absurd hij (by omega)
                  · have hgi2 : (applyUpdate (applyUpdate s
                        (writing_supervisor s)) u).plan.get? i =
                        some itI := by
                      rw [hs2get i hi]
                      exact hgi
                    rcases ihr8 t1'' b t2 h4 i l1.length itI item2 hgi2
                        hs2get_at (hid2.trans hidb) hij htyI
                        (hty2.trans htyJ) with hcompl2 | hmem2
                    · exact Or.inl hcompl2
                    · exact Or.inr (List.mem_cons_of_mem _
                        (List.mem_cons_of_mem _ hmem2))
                · have hgj2 : (applyUpdate (applyUpdate s
                      (writing_supervisor s)) u).plan.get? j =
                      some itJ := by
                    rw [hs2get j hj]
                    exact hgj
                  by_cases hi : i = l1.length
                  · subst hi
                    rw [hget_at] at hgi
                    cases hgi
                    rcases ihr8 t1'' b t2 h4 l1.length j item2 itJ hs2get_at
                        hgj2 hidb hij (hty2.trans htyI) htyJ with
                        hcompl2 | hmem2
                    · right
                      rw [← h3, ← hcompl2]
                      exact List.mem_cons_of_mem _ (List.mem_cons_self _ _)
                    · exact Or.inr (List.mem_cons_of_mem _
                        (List.mem_cons_of_mem _ (hid2 ▸ hmem2)))
                  · have hgi2 : (applyUpdate (applyUpdate s
                        (writing_supervisor s)) u).plan.get? i =
                        some itI := by
                      rw [hs2get i hi]
                      exact hgi
                    rcases ihr8 t1'' b t2 h4 i j itI itJ hgi2 hgj2 hidb hij
                        htyI htyJ with hcompl2 | hmem2
                    · exact Or.inl hcompl2
                    · exact Or.inr (List.mem_cons_of_mem _
                        (List.mem_cons_of_mem _ hmem2))

/-! ## Lemmas: the phases between the loops -/

theorem summarizeStep_map_pres {β : Type} (f : PlanItem → β)
    (hf : ∀ (it : PlanItem) (c : String), f { it with content := c } = f it)
    (so : String → String → String) (plan : List PlanItem) (i : Nat) :
    (summarizeStep so plan i).map f = plan.map f := by
  cases hget : plan.get? i with
  | none => simp only [summarizeStep, hget]
  | some item =>
    simp only [summarizeStep, hget]
    by_cases hw : item.task_type = TaskType.WRITING
    · rw [if_pos hw]
      split_ifs
      · exact map_set_eq f plan i _ item hget (hf item _)
      · exact map_set_eq f plan i _ item hget (hf item _)
    · rw [if_neg hw]

theorem summarizeAux_map_pres {β : Type} (f : PlanItem → β)
    (hf : ∀ (it : PlanItem) (c : String), f { it with content := c } = f it)
    (so : String → String → String) :
    ∀ (fuel : Nat) (plan : List PlanItem) (start : Nat),
      (summarizeAux so fuel plan start).map f = plan.map f
  | 0, plan, start => rfl
  | fuel + 1, plan, start => by
    have h1 : summarizeAux so (fuel + 1) plan start =
        summarizeAux so fuel (summarizeStep so plan start) (start + 1) := rfl
    rw [h1, summarizeAux_map_pres f hf so fuel _ (start + 1),
      summarizeStep_map_pres f hf]

theorem overall_summary_plan (oo : String → String) (s : AgentState) :
    (applyUpdate s (generate_overall_summary oo s)).plan = s.plan := by
  simp only [generate_overall_summary]
  split <;> rfl

theorem append_cons_cases {α : Type} :
    ∀ (a b t1 : List α) (x : α) (t2 : List α),
      a ++ b = t1 ++ x :: t2 →
      (∃ t2a, a = t1 ++ x :: t2a ∧ t2 = t2a ++ b)
      ∨ (∃ t1b, t1 = a ++ t1b ∧ b = t1b ++ x :: t2)
  | [], b, t1, x, t2, h => Or.inr ⟨t1, by simp, by simpa using h⟩
  | y :: a', b, [], x, t2, h => by
    injection h with h1 h2
    refine Or.inl ⟨a', ?_, h2.symm⟩
    rw [h1]
    rfl
  | y :: a', b, z :: t1', x, t2, h => by
    injection h with h1 h2
    rcases append_cons_cases a' b t1' x t2 h2 with ⟨t2a, ha, hb⟩ | ⟨t1b, ha, hb⟩
    · exact Or.inl ⟨t2a, by rw [h1, List.cons_append, ha], hb⟩
    · exact Or.inr ⟨t1b, by rw [h1, List.cons_append, ha], hb⟩

theorem runGraph_done_elim (fuelR fuelW : Nat) (ro : Nat → SearchOutcome)
    (so : String → String → String) (oo : String → String)
    (wo : AgentInput → Except String (List Chunk))
    (lookup : String → Option (Option String)) (s0 sfin : AgentState)
    (tr : List Event)
    (hrun : runGraph fuelR fuelW ro so oo wo lookup s0 =
      RunOutcome.done sfin tr) :
    ∃ s1 trR s4 trW,
      researchLoop ro fuelR 0 s0 = (s1, trR, true)
      ∧ writingLoop wo lookup fuelW
          (applyUpdate (applyUpdate s1 (call_plan_summarizer so s1))
            (generate_overall_summary oo
              (applyUpdate s1 (call_plan_summarizer so s1)))) =
          Except.ok (s4, trW, true)
      ∧ sfin = applyUpdate s4 (final_assembler s4)
      ∧ tr = trR ++ trW := by
  rcases hR : researchLoop ro fuelR 0 s0 with ⟨s1, trR, f1⟩
  simp only [runGraph, hR] at hrun
  cases f1 with
  | false =>
    rw [if_pos rfl] at hrun
    cases hrun
  | true =>
    rw [if_neg (by simp)] at hrun
    cases hW : writingLoop wo lookup fuelW
        (applyUpdate (applyUpdate s1 (call_plan_summarizer so s1))
          (generate_overall_summary oo
            (applyUpdate s1 (call_plan_summarizer so s1)))) with
    | error e =>
      simp only [hW] at hrun
      cases hrun
    | ok res =>
      rcases hres : res with ⟨s4, trW, f2⟩
      rw [hres] at hW
      simp only [hW] at hrun
      cases f2 with
      | false =>
        rw [if_pos rfl] at hrun
        cases hrun
      | true =>
        rw [if_neg (by simp)] at hrun
        injection hrun with h1 h2
        exact ⟨s1, trR, s4, trW, rfl, hW, h1.symm, h2.symm⟩

theorem map_pair_fst (l l' : List PlanItem)
    (h : l'.map (fun it => (it.item_id, it.task_type))
      = l.map (fun it => (it.item_id, it.task_type))) :
    l'.map (fun it => it.item_id) = l.map (fun it => it.item_id) := by
  apply List.ext_get?
  intro n
  have hc := map_get?_component
    (fun it : PlanItem => (it.item_id, it.task_type)) l l' h n
  rw [List.get?_map, List.get?_map]
  cases h1 : l'.get? n with
  | none =>
    rw [h1] at hc
    cases h2 : l.get? n with
    | none => rfl
    | some b =>
      rw [h2] at hc
      cases hc
  | some a =>
    rw [h1] at hc
    cases h2 : l.get? n with
    | none =>
      rw [h2] at hc
      cases hc
    | some b =>
      rw [h2] at hc
      have hab := Option.some.inj hc
      show some a.item_id = some b.item_id
      exact congrArg some (congrArg (fun p => p.1) hab)

/-! ## Claim C2: phase and dispatch ordering -/

/-- C2: phase and dispatch ordering.  For every completed run from a
freshly planned state (all items pending, unique ids): (1) the trace is a
sequence of begin/resolve pairs — at most one task in flight; (2) it splits
into a research segment followed by a writing segment, the research segment
naming only RESEARCH items and containing a completed-resolve for every
RESEARCH item, the writing segment likewise for WRITING items — so every
RESEARCH task resolves before any WRITING task begins, and all WRITING tasks
resolve before assembly (which follows the whole trace); (3) within a phase
tasks are dispatched in plan order: whenever an item begins, every
earlier-in-plan item of the same task type has already resolved completed
earlier in the trace. -/
theorem c2_phase_and_dispatch_ordering (fuelR fuelW : Nat)
    (ro : Nat → SearchOutcome) (so : String → String → String)
    (oo : String → String) (wo : AgentInput → Except String (List Chunk))
    (lookup : String → Option (Option String)) (s0 sfin : AgentState)
    (tr : List Event)
    (hnodup0 : (s0.plan.map (fun it => it.item_id)).Nodup)
    (hpend : ∀ it ∈ s0.plan, it.status = Status.pending)
    (hrun : runGraph fuelR fuelW ro so oo wo lookup s0 =
      RunOutcome.done sfin tr) :
    wellPaired tr = true
    ∧ (∃ trR trW, tr = trR ++ trW
        ∧ (∀ e ∈ trR, ∃ it ∈ s0.plan, eventId e = it.item_id
            ∧ it.task_type = TaskType.RESEARCH)
        ∧ (∀ e ∈ trW, ∃ it ∈ s0.plan, eventId e = it.item_id
            ∧ it.task_type = TaskType.WRITING)
        ∧ (∀ it ∈ s0.plan, it.task_type = TaskType.RESEARCH →
            Event.resolve it.item_id Status.completed ∈ trR)
        ∧ (∀ it ∈ s0.plan, it.task_type = TaskType.WRITING →
            Event.resolve it.item_id Status.completed ∈ trW))
    ∧ (∀ t1 b t2, tr = t1 ++ Event.begin b :: t2 →
        ∀ i j itI itJ, s0.plan.get? i = some itI →
          s0.plan.get? j = some itJ → itJ.item_id = b → i < j →
          itI.task_type = itJ.task_type →
          Event.resolve itI.item_id Status.completed ∈ t1) := by
  obtain ⟨s1, trR, s4, trW, hR, hW, hsfin, htr⟩ :=
    runGraph_done_elim fuelR fuelW ro so oo wo lookup s0 sfin tr hrun
  obtain ⟨Rskel, Runtouched, Rwp, Rev, Rfl, Rr7, Rr8⟩ :=
    researchLoop_spec ro fuelR 0 s0 s1 trR true hnodup0 hR
  set s3e := applyUpdate (applyUpdate s1 (call_plan_summarizer so s1))
    (generate_overall_summary oo
      (applyUpdate s1 (call_plan_summarizer so s1))) with hs3edef
  have hplan3 : s3e.plan = summarizeAux so s1.plan.length s1.plan 0 := by
    rw [hs3edef,
      overall_summary_plan oo (applyUpdate s1 (call_plan_summarizer so s1))]
    rfl
  have hmap3_f3 : s3e.plan.map
      (fun it => (it.item_id, it.task_type, it.status)) =
      s1.plan.map (fun it => (it.item_id, it.task_type, it.status)) := by
    rw [hplan3]
    exact summarizeAux_map_pres
      (fun it => (it.item_id, it.task_type, it.status)) (fun _ _ => rfl)
      so _ _ _
  have hmap3_f2 : s3e.plan.map (fun it => (it.item_id, it.task_type)) =
      s1.plan.map (fun it => (it.item_id, it.task_type)) := by
    rw [hplan3]
    exact summarizeAux_map_pres
      (fun it => (it.item_id, it.task_type)) (fun _ _ => rfl) so _ _ _
  have hmap30_f2 : s3e.plan.map (fun it => (it.item_id, it.task_type)) =
      s0.plan.map (fun it => (it.item_id, it.task_type)) := by
    rw [hmap3_f2, Rskel]
  have hnodup3 : (s3e.plan.map (fun it => it.item_id)).Nodup := by
    rw [map_pair_fst s0.plan s3e.plan hmap30_f2]
    exact hnodup0
  obtain ⟨Wskel, Wuntouched, Wwp, Wev, Wfl, Wr7, Wr8⟩ :=
    writingLoop_spec wo lookup fuelW s3e s4 trW true hnodup3 hW
  have hcomp01 := map_get?_component
    (fun it : PlanItem => (it.item_id, it.task_type)) s0.plan s1.plan Rskel
  have hcomp03 := map_get?_component
    (fun it : PlanItem => (it.item_id, it.task_type)) s0.plan s3e.plan
    hmap30_f2
  have hcomp34 := map_get?_component
    (fun it : PlanItem => (it.item_id, it.task_type)) s3e.plan s4.plan Wskel
  have hwpos : ∀ i it0, s0.plan.get? i = some it0 →
      it0.task_type = TaskType.WRITING →
      ∃ it3, s3e.plan.get? i = some it3 ∧ it3.item_id = it0.item_id ∧
        it3.task_type = TaskType.WRITING ∧ it3.status = it0.status := by
    intro i it0 hget0 hty0
    have hget1 : s1.plan.get? i = some it0 :=
      Runtouched i it0 hget0 (Or.inl (by simp [hty0]))
    have hcomp := map_get?_component
      (fun it : PlanItem => (it.item_id, it.task_type, it.status))
      s1.plan s3e.plan hmap3_f3 i
    rw [hget1] at hcomp
    obtain ⟨it3, hget3, hf⟩ := Option.map_eq_some'.mp hcomp
    have h1 : it3.item_id = it0.item_id := congrArg (fun p => p.1) hf
    have h2 : it3.task_type = it0.task_type := congrArg (fun p => p.2.1) hf
    have h3 : it3.status = it0.status := congrArg (fun p => p.2.2) hf
    exact ⟨it3, hget3, h1, h2.trans hty0, h3⟩
  refine ⟨?_, ⟨trR, trW, htr, Rev, ?_, ?_, ?_⟩, ?_⟩
  · rw [htr]
    exact wellPaired_append trR trW Rwp Wwp
  · intro e he
    obtain ⟨it3, hmem3, hid, hty3⟩ := Wev e he
    obtain ⟨i, hget3⟩ := mem_get?_some hmem3
    have hc := hcomp03 i
    rw [hget3] at hc
    obtain ⟨it0, hget0, hf⟩ := (Option.map_eq_some'.mp hc.symm)
    refine ⟨it0, get?_some_mem hget0, ?_, ?_⟩
    · rw [hid]
      exact (congrArg (fun p => p.1) hf).symm
    · have := congrArg (fun p : String × TaskType => p.2) hf
      exact (by simpa [hty3] using this : it0.task_type = TaskType.WRITING)
  · intro it hmem hty
    obtain ⟨i, hget0⟩ := mem_get?_some hmem
    have hc := hcomp01 i
    rw [hget0] at hc
    obtain ⟨it1, hget1, hf⟩ := Option.map_eq_some'.mp hc
    have hid1 : it1.item_id = it.item_id := congrArg (fun p => p.1) hf
    have hty1 : it1.task_type = it.task_type := congrArg (fun p => p.2) hf
    have hcompl1 : it1.status = Status.completed :=
      Rfl rfl it1 (get?_some_mem hget1) (hty1.trans hty)
    rcases Rr7 i it1 hget1 hcompl1 with ⟨itx, hgx, hcx⟩ | hres
    · rw [hget0] at hgx
      cases hgx
      rw [hpend it hmem] at hcx
      cases hcx
    · rw [← hid1]
      exact hres
  · intro it hmem hty
    obtain ⟨i, hget0⟩ := mem_get?_some hmem
    obtain ⟨it3, hget3, hid3, hty3, hstat3⟩ := hwpos i it hget0 hty
    have hc := hcomp34 i
    rw [hget3] at hc
    obtain ⟨it4, hget4, hf4⟩ := Option.map_eq_some'.mp hc
    have hid4 : it4.item_id = it3.item_id := congrArg (fun p => p.1) hf4
    have hty4 : it4.task_type = it3.task_type := congrArg (fun p => p.2) hf4
    have hcompl4 : it4.status = Status.completed :=
      Wfl rfl it4 (get?_some_mem hget4) (hty4.trans hty3)
    rcases Wr7 i it4 hget4 hcompl4 with ⟨itx, hgx, hcx⟩ | hres
    · rw [hget3] at hgx
      cases hgx
      rw [hstat3, hpend it hmem] at hcx
      cases hcx
    · rw [← hid3, ← hid4]
      exact hres
  · intro t1 b t2 hdec i j itI itJ hgi hgj hidb hij htysame
    rw [htr] at hdec
    have hpendI : itI.status = Status.pending := hpend itI (get?_some_mem hgi)
    rcases append_cons_cases trR trW t1 (Event.begin b) t2 hdec with
        ⟨t2a, hA, hB⟩ | ⟨t1b, hA, hB⟩
    · have hbmem : Event.begin b ∈ trR := by
        rw [hA]
        exact List.mem_append.mpr (Or.inr (List.mem_cons_self _ _))
      obtain ⟨itR, hmemR, hidR, htyR⟩ := Rev (Event.begin b) hbmem
      obtain ⟨jR, hgetR⟩ := mem_get?_some hmemR
      have hj : j = jR :=
        nodup_map_get_inj (fun it => it.item_id) s0.plan j jR itJ itR hnodup0
          hgj hgetR (by show itJ.item_id = itR.item_id; rw [hidb]; exact hidR)
      subst hj
      rw [hgetR] at hgj
      cases hgj
      have htyJ : itJ.task_type = TaskType.RESEARCH := htyR
      have htyI : itI.task_type = TaskType.RESEARCH := htysame.trans htyJ
      rcases Rr8 t1 b t2a hA i j itI itJ hgi hgetR hidb hij htyI htyJ with
          hcompl | hres
      · rw [hpendI] at hcompl
        cases hcompl
      · exact hres
    · have hbmem : Event.begin b ∈ trW := by
        rw [hB]
        exact List.mem_append.mpr (Or.inr (List.mem_cons_self _ _))
      obtain ⟨it3b, hmem3b, hid3b, hty3b⟩ := Wev (Event.begin b) hbmem
      obtain ⟨jW, hget3b⟩ := mem_get?_some hmem3b
      have hc := hcomp03 jW
      rw [hget3b] at hc
      obtain ⟨itJ0, hgetJ0, hfJ⟩ := Option.map_eq_some'.mp hc.symm
      have hJ0id : itJ0.item_id = it3b.item_id :=
        congrArg (fun p => p.1) hfJ
      have hJ0ty : itJ0.task_type = it3b.task_type :=
        congrArg (fun p : String × TaskType => p.2) hfJ
      have hj : j = jW :=
        nodup_map_get_inj (fun it => it.item_id) s0.plan j jW itJ itJ0 hnodup0
          hgj hgetJ0
          (by show itJ.item_id = itJ0.item_id; rw [hidb, hJ0id]; exact hid3b)
      subst hj
      rw [hgetJ0] at hgj
      cases hgj
      have htyJ : itJ.task_type = TaskType.WRITING := hJ0ty.trans hty3b
      have htyI : itI.task_type = TaskType.WRITING := htysame.trans htyJ
      obtain ⟨itI3, hgetI3, hidI3, htyI3, hstatI3⟩ := hwpos i itI hgi htyI
      rcases Wr8 t1b b t2 hB i j itI3 it3b hgetI3 hget3b
          (by exact hid3b.symm) hij htyI3 hty3b with hcompl | hres
      · rw [hstatI3, hpendI] at hcompl
        cases hcompl
      · rw [hA]
        rw [hidI3] at hres
        exact List.mem_append.mpr (Or.inr hres)

/-- Witness: the ordering theorem applied to the concrete four-item run,
whose trace it certifies wellPaired (the hypotheses — unique ids, all
pending, and the run producing exactly that trace — hold by computation). -/
theorem c2_witness : wellPaired c2Trace = true :=
  (c2_phase_and_dispatch_ordering 3 3 c2ro c2so c2oo c2wo c2lookup c2S0
    c2Sfin c2Trace (by decide) (by decide) (by decide)).1

/-! ## Claim C8: the plan-summarizer stub -/

theorem depBlock_ne_empty (p : List PlanItem) (d : String) :
    depBlock p d ≠ "" := by
  simp only [depBlock]
  intro h
  have hl := congrArg String.length h
  simp [String.length_append] at hl
  exact absurd hl.1.1.1.1 (by decide)

theorem anyBlocks_eq_false_iff (p : List PlanItem) (deps : List String) :
    ((deps.map (depBlock p)).any (fun b => decide (b ≠ "")) = false)
      ↔ deps = [] := by
  cases deps with
  | nil => simp
  | cons d rest =>
    simp only [List.map_cons, List.any_cons]
    constructor
    · intro h
      exfalso
      have hne := depBlock_ne_empty p d
      have hdec : decide (depBlock p d ≠ "") = true := by simpa using hne
      rw [hdec] at h
      simp at h
    · intro h
      cases h

theorem summarizeStep_length (so : String → String → String)
    (plan : List PlanItem) (i : Nat) :
    (summarizeStep so plan i).length = plan.length := by
  cases hget : plan.get? i with
  | none => simp only [summarizeStep, hget]
  | some item =>
    simp only [summarizeStep, hget]
    by_cases hw : item.task_type = TaskType.WRITING
    · rw [if_pos hw]
      split_ifs <;> simp
    · rw [if_neg hw]

theorem summarizeStep_get_ne (so : String → String → String)
    (plan : List PlanItem) (i j : Nat) (hne : i ≠ j) :
    (summarizeStep so plan i).get? j = plan.get? j := by
  cases hget : plan.get? i with
  | none => simp only [summarizeStep, hget]
  | some item =>
    simp only [summarizeStep, hget]
    by_cases hw : item.task_type = TaskType.WRITING
    · rw [if_pos hw]
      split_ifs <;> exact List.get?_set_ne _ _ hne
    · rw [if_neg hw]

theorem summarizeAux_length (so : String → String → String) :
    ∀ (fuel : Nat) (plan : List PlanItem) (start : Nat),
      (summarizeAux so fuel plan start).length = plan.length
  | 0, plan, start => rfl
  | fuel + 1, plan, start => by
    have h1 : summarizeAux so (fuel + 1) plan start =
        summarizeAux so fuel (summarizeStep so plan start) (start + 1) := rfl
    rw [h1, summarizeAux_length so fuel _ (start + 1),
      summarizeStep_length]

theorem summarizeAux_get_lt (so : String → String → String) :
    ∀ (fuel : Nat) (plan : List PlanItem) (start j : Nat), j < start →
      (summarizeAux so fuel plan start).get? j = plan.get? j
  | 0, plan, start, j, _ => rfl
  | fuel + 1, plan, start, j, h => by
    have h1 : summarizeAux so (fuel + 1) plan start =
        summarizeAux so fuel (summarizeStep so plan start) (start + 1) := rfl
    rw [h1, summarizeAux_get_lt so fuel _ (start + 1) j
      (Nat.lt_succ_of_lt h)]
    exact summarizeStep_get_ne so plan start j (by omega)

theorem summarizeAux_get_ge (so : String → String → String) :
    ∀ (fuel : Nat) (plan : List PlanItem) (start j : Nat),
      start + fuel ≤ j →
      (summarizeAux so fuel plan start).get? j = plan.get? j
  | 0, plan, start, j, _ => rfl
  | fuel + 1, plan, start, j, h => by
    have h1 : summarizeAux so (fuel + 1) plan start =
        summarizeAux so fuel (summarizeStep so plan start) (start + 1) := rfl
    rw [h1, summarizeAux_get_ge so fuel _ (start + 1) j (by omega)]
    exact summarizeStep_get_ne so plan start j (by omega)

theorem summarizeAux_split (so : String → String → String) :
    ∀ (a b : Nat) (plan : List PlanItem) (start : Nat),
      summarizeAux so (a + b) plan start =
        summarizeAux so b (summarizeAux so a plan start) (start + a)
  | 0, b, plan, start => by
    rw [Nat.zero_add, Nat.add_zero]
    rfl
  | a + 1, b, plan, start => by
    have h1 : (a + 1) + b = (a + b) + 1 := by omega
    rw [h1]
    show summarizeAux so (a + b) (summarizeStep so plan start) (start + 1) = _
    rw [summarizeAux_split so a b (summarizeStep so plan start) (start + 1)]
    have h2 : start + 1 + a = start + (a + 1) := by omega
    rw [h2]
    rfl

theorem summarizeStep_at (so : String → String → String)
    (plan : List PlanItem) (i : Nat) (item : PlanItem)
    (hget : plan.get? i = some item)
    (hw : item.task_type = TaskType.WRITING) :
    summarizeStep so plan i =
      if ((item.dependencies.map (depBlock plan)).any
            (fun b => decide (b ≠ ""))) = false
      then plan.set i { item with content := summarizerStub item }
      else plan.set i { item with content := so item.description (String.intercalate "\n\n" (item.dependencies.map (depBlock plan))) } := by
  simp only [summarizeStep, hget, if_pos hw]

/-- Counterexample to C8 as stated: a WRITING item with one RESEARCH
dependency whose content is empty (so no dependency produced content) is
staged with the summarizer oracle's output, not with the
`未能找到相关的研究资料` stub. -/
theorem c8_counterexample :
    ((applyUpdate c8S (call_plan_summarizer (fun _ _ => "SUMMARY") c8S)).plan.get? 1).map
        (fun it => it.content) = some "SUMMARY"
    ∧ (c8S.plan.get? 0).map (fun it => it.content) = some ""
    ∧ "SUMMARY" ≠ summarizerStub c8w1 := by
  decide

/-- C8 (amended): during PLAN_SUMMARIZE a WRITING item is staged with the
stub exactly when its dependencies list is empty; with dependencies present
— even if every dependency's content is empty — the staged value is the
summarizer output over the per-dependency header blocks (each block contains
a non-empty literal header, so the emptiness test never fires). -/
theorem c8_amended (so : String → String → String) (s : AgentState)
    (i : Nat) (item : PlanItem)
    (hget : s.plan.get? i = some item)
    (hty : item.task_type = TaskType.WRITING) :
    ((applyUpdate s (call_plan_summarizer so s)).plan.get? i).map
        (fun it => it.content) =
      some (if item.dependencies.isEmpty then summarizerStub item
            else so item.description
              (String.intercalate "\n\n"
                (item.dependencies.map
                  (depBlock (summarizeAux so i s.plan 0))))) := by
  have hplan : (applyUpdate s (call_plan_summarizer so s)).plan
      = summarizeAux so s.plan.length s.plan 0 := rfl
  have hlen : i < s.plan.length := (List.get?_eq_some.mp hget).1
  have hsplit1 : s.plan.length = i + (s.plan.length - i) := by omega
  have hsplit2 : s.plan.length - i = (s.plan.length - i - 1) + 1 := by omega
  have hPi_get : (summarizeAux so i s.plan 0).get? i = some item := by
    rw [summarizeAux_get_ge so i s.plan 0 i (by omega)]
    exact hget
  have hPi_len : i < (summarizeAux so i s.plan 0).length := by
    rw [summarizeAux_length]
    exact hlen
  rw [hplan, hsplit1, summarizeAux_split so i (s.plan.length - i) s.plan 0,
    Nat.zero_add, hsplit2]
  have h3 : summarizeAux so ((s.plan.length - i - 1) + 1)
      (summarizeAux so i s.plan 0) i =
      summarizeAux so (s.plan.length - i - 1)
        (summarizeStep so (summarizeAux so i s.plan 0) i) (i + 1) := rfl
  rw [h3, summarizeAux_get_lt so _ _ (i + 1) i (by omega)]
  rw [summarizeStep_at so _ i item hPi_get hty]
  cases hdeps : item.dependencies with
  | nil =>
    rw [if_pos (by rfl)]
    rw [List.get?_set_eq_of_lt _ hPi_len]
    simp
  | cons d rest =>
    have hcond : ¬((((d :: rest).map
        (depBlock (summarizeAux so i s.plan 0))).any
          (fun b => decide (b ≠ ""))) = false) := by
      intro hcontra
      exact absurd
        ((anyBlocks_eq_false_iff (summarizeAux so i s.plan 0)
          (d :: rest)).mp hcontra) (by simp)
    rw [if_neg hcond, List.get?_set_eq_of_lt _ hPi_len]
    simp

/-- Witness for C8 (amended): the scenario item with one empty-content
dependency is staged with the summarizer output. -/
theorem c8_witness :
    ((applyUpdate c8S (call_plan_summarizer (fun _ _ => "SUMMARY") c8S)).plan.get? 1).map
        (fun it => it.content) = some "SUMMARY" :=
  (c8_amended (fun _ _ => "SUMMARY") c8S 1 c8w1 (by decide) (by decide)).trans
    (by decide)

/-! ## Claim C9: copy-on-write plan snapshots (object-identity model) -/

theorem appendLog_items (h : PyHeap) (r : Nat) (line : String) :
    (appendLog h r line).items = h.items := by
  simp only [appendLog]
  cases h.logs.get? r <;> rfl

theorem setItem_logs (h : PyHeap) (a : Nat) (f : HItem → HItem) :
    (setItem h a f).logs = h.logs := by
  simp only [setItem]
  cases h.items.get? a <;> rfl

theorem setItem_items_get_ne (h : PyHeap) (a : Nat) (f : HItem → HItem)
    (a' : Nat) (hne : a ≠ a') :
    (setItem h a f).items.get? a' = h.items.get? a' := by
  simp only [setItem]
  cases h.items.get? a with
  | none => rfl
  | some it => exact List.get?_set_ne _ _ hne

theorem copyPlan_items (h : PyHeap) (refs : List Nat) :
    ((copyPlan h refs).1).items = h.items ++ derefPlan h refs := rfl

theorem copyPlan_logs (h : PyHeap) (refs : List Nat) :
    ((copyPlan h refs).1).logs = h.logs := rfl

/-- Counterexample to C9 as stated: `_validate_and_correct_plan` copies only
the list container (`list(plan)`), so after validation the caller's prior
plan snapshot — the same item addresses — shows the corrected dependencies,
not the ones it held before the transition. -/
theorem c9_counterexample :
    ((validateMut c9Heap c9Refs).1.items.get? 1).map
        (fun it => it.dependencies) = some ["r1"]
    ∧ (c9Heap.items.get? 1).map (fun it => it.dependencies) =
        some ["r1", "ghost"] := by
  decide

/-- C9 (amended): only the research and writing executors copy item dicts.
(1) After research execution every pre-existing item cell is unchanged (the
field writes land on the fresh copies); (2) but its log append goes to the
`execution_log` list shared with the prior snapshot; (3,4) the writing
executor's plan update leaves every pre-existing item cell and all log cells
unchanged; (5,6) validation and summarization return the same item
addresses (`list(plan)` copies only the container), so — as the
counterexample and conjunct (7) show concretely — their writes are visible
through the prior snapshot. -/
theorem c9_amended (o : SearchOutcome) (current : Option String)
    (h : PyHeap) (refs : List Nat) (a : Nat) (idxw : Nat) (content : String)
    (so : String → String → String)
    (id : String) (item : HItem) (idx : Nat) (lg : List String) (e : String)
    (ha : a < h.items.length)
    (hfind : findHItem (derefPlan h refs) id = some (item, idx))
    (hlog : h.logs.get? item.execution_log = some lg) :
    ((execute_research_task_mut o current h refs).1).items.get? a =
      h.items.get? a
    ∧ ((execute_research_task_mut (SearchOutcome.searchRaise e) (some id)
          h refs).1).logs.get? item.execution_log =
        some (lg ++ [researchFailMsg' item e])
    ∧ ((writing_update_mut h refs idxw content).1).items.get? a =
        h.items.get? a
    ∧ ((writing_update_mut h refs idxw content).1).logs = h.logs
    ∧ (summarizeMut so h refs).2 = refs
    ∧ (validateMut h refs).2.1 = refs
    ∧ (((summarizeMut (fun _ _ => "S") c9SumHeap [0, 1]).1).items.get? 1).map
          (fun it => it.content) = some "S" := by
  have hne : ∀ idx2 : Nat, h.items.length + idx2 ≠ a := by
    intro idx2
    omega
  refine ⟨?_, ?_, ?_, ?_, rfl, rfl, by decide⟩
  · cases current with
    | none => rfl
    | some id2 =>
      cases hfind2 : findHItem (derefPlan h refs) id2 with
      | none => simp only [execute_research_task_mut, hfind2]
      | some p =>
        obtain ⟨item2, idx2⟩ := p
        cases o with
        | ok results =>
          simp only [execute_research_task_mut, hfind2]
          rw [appendLog_items, setItem_items_get_ne _ _ _ _ (hne idx2),
            appendLog_items, setItem_items_get_ne _ _ _ _ (hne idx2),
            copyPlan_items, List.get?_append ha]
        | searchRaise e2 =>
          simp only [execute_research_task_mut, hfind2]
          rw [appendLog_items, setItem_items_get_ne _ _ _ _ (hne idx2),
            setItem_items_get_ne _ _ _ _ (hne idx2),
            copyPlan_items, List.get?_append ha]
        | indexRaise results e2 =>
          simp only [execute_research_task_mut, hfind2]
          rw [appendLog_items, setItem_items_get_ne _ _ _ _ (hne idx2),
            appendLog_items, setItem_items_get_ne _ _ _ _ (hne idx2),
            copyPlan_items, List.get?_append ha]
  · have hr : item.execution_log < h.logs.length :=
      (List.get?_eq_some.mp hlog).1
    simp only [execute_research_task_mut, hfind]
    have hlogs2 : (setItem ((copyPlan h refs).1)
        (h.items.length + idx)
        (fun it => { it with status := Status.in_progress })).logs = h.logs := by
      rw [setItem_logs, copyPlan_logs]
    have hlogs3 : (setItem (setItem ((copyPlan h refs).1)
        (h.items.length + idx)
        (fun it => { it with status := Status.in_progress }))
        (h.items.length + idx)
        (fun it => { it with status := Status.failed })).logs = h.logs := by
      rw [setItem_logs, hlogs2]
    simp only [appendLog, hlogs3, hlog]
    exact List.get?_set_eq_of_lt _ hr
  · simp only [writing_update_mut]
    rw [setItem_items_get_ne _ _ _ _ (hne idxw), copyPlan_items,
      List.get?_append ha]
  · simp only [writing_update_mut]
    rw [setItem_logs, copyPlan_logs]

/-- Witness for C9 (amended), at the concrete two-item store: the research
executor's failure path leaves the prior `w1` cell unchanged. -/
theorem c9_witness :
    ((execute_research_task_mut (SearchOutcome.searchRaise "boom")
        (some "r1") c9Heap c9Refs).1).items.get? 1 =
      c9Heap.items.get? 1 :=
  (c9_amended (SearchOutcome.searchRaise "boom") (some "r1") c9Heap c9Refs 1 0
    "c" (fun _ _ => "S") "r1"
    { item_id := "r1", task_type := TaskType.RESEARCH, execution_log := 0 }
    0 [] "boom" (by decide) (by decide) (by decide)).1

end DeepResearch
